import Mathlib

/-!
Verification of the moneytracker ledger and recurring-transaction engine.

The definitions below are a shallow embedding of `app/models/transaction.py`,
`app/models/account.py` and `app/models/recurring.py`.  Python `datetime.date`
values are modelled by the `PDate` structure together with calendar arithmetic
(`addDays` for `timedelta`, `dreplace` for `date.replace`, which returns `none`
where Python raises `ValueError`).  Monetary amounts are modelled by `Int`.
The SQLite tables are modelled by in-memory lists carried in `LedgerState`;
each model function threads the state explicitly, mirroring the SQL statements
of the corresponding Python function.
-/

namespace MoneyTracker

/-- A calendar date, as Python's `datetime.date` (year, month, day). -/
structure PDate where
  year : Nat
  month : Nat
  day : Nat
deriving DecidableEq, Repr

/-- Strict order on dates: lexicographic on (year, month, day);
this is the order Python's `datetime.date` comparison implements, and also
the order of SQLite string comparison of ISO `YYYY-MM-DD` dates. -/
def dateLT (a b : PDate) : Prop :=
  a.year < b.year ∨ (a.year = b.year ∧
    (a.month < b.month ∨ (a.month = b.month ∧ a.day < b.day)))

/-- Non-strict date order. -/
def dateLE (a b : PDate) : Prop := dateLT a b ∨ a = b

instance : DecidablePred (fun p : PDate × PDate => dateLT p.1 p.2) := by
  intro p; unfold dateLT; infer_instance

instance (a b : PDate) : Decidable (dateLT a b) := by
  unfold dateLT; infer_instance

instance (a b : PDate) : Decidable (dateLE a b) := by
  unfold dateLE; infer_instance

/-- Gregorian leap-year test, as Python's `calendar.isleap`. -/
def isLeap (y : Nat) : Bool :=
  y % 4 == 0 && (y % 100 != 0 || y % 400 == 0)

/-- Number of days in a month of a given year. -/
def daysInMonth (y m : Nat) : Nat :=
  if m = 2 then (if isLeap y then 29 else 28)
  else if m = 4 ∨ m = 6 ∨ m = 9 ∨ m = 11 then 30
  else 31

/-- A valid calendar date: month in 1..12 and day in 1..days-of-that-month. -/
def validDate (d : PDate) : Prop :=
  1 ≤ d.month ∧ d.month ≤ 12 ∧ 1 ≤ d.day ∧ d.day ≤ daysInMonth d.year d.month

instance (d : PDate) : Decidable (validDate d) := by
  unfold validDate; infer_instance

/-- The day after a date (used to model `timedelta` addition on valid dates). -/
def succDay (d : PDate) : PDate :=
  if d.day + 1 ≤ daysInMonth d.year d.month then ⟨d.year, d.month, d.day + 1⟩
  else if d.month = 12 then ⟨d.year + 1, 1, 1⟩
  else ⟨d.year, d.month + 1, 1⟩

/-- `d + timedelta(days = n)`. -/
def addDays (d : PDate) : Nat → PDate
  | 0 => d
  | n + 1 => succDay (addDays d n)

/-- Python's `date.replace(year := y, month := m)` keeping the day:
returns `none` exactly where Python raises `ValueError`
(the day does not exist in the target month). -/
def dreplace (d : PDate) (y m : Nat) : Option PDate :=
  if 1 ≤ m ∧ m ≤ 12 ∧ 1 ≤ d.day ∧ d.day ≤ daysInMonth y m then
    some ⟨y, m, d.day⟩
  else none

/-- `RecurringModel._calculate_next_date(last_date, frequency)`.
`none` models a raised `ValueError`; any unknown frequency falls through to
`return last_date`. -/
def calculateNextDate (last : PDate) (frequency : String) : Option PDate :=
  if frequency = "daily" then some (addDays last 1)
  else if frequency = "weekly" then some (addDays last 7)
  else if frequency = "biweekly" then some (addDays last 14)
  else if frequency = "monthly" then
    if last.month = 12 then dreplace last (last.year + 1) 1
    else dreplace last last.year (last.month + 1)
  else if frequency = "quarterly" then
    let m := last.month + 3
    if m > 12 then dreplace last (last.year + 1) (m - 12)
    else dreplace last last.year m
  else if frequency = "yearly" then dreplace last (last.year + 1) last.month
  else some last

/-- A row of the `accounts` table. -/
structure Account where
  id : Nat
  name : String
  atype : String
  balance : Int
deriving DecidableEq, Repr

/-- A row of the `transactions` table. -/
structure Txn where
  id : Nat
  accountId : Nat
  amount : Int
  date : PDate
  ttype : String
  payee : Option String
  category : Option String
  notes : Option String
  project : Option String
  recurringId : Option Nat
deriving DecidableEq, Repr

/-- The database state the ledger operations touch: the `accounts` and
`transactions` tables, plus the id SQLite will assign to the next inserted
transaction row (the autoincrement counter behind `cursor.lastrowid`). -/
structure LedgerState where
  accounts : List Account
  txns : List Txn
  nextTxnId : Nat
deriving DecidableEq, Repr

/-- `account.get_by_id(account_id)`: `SELECT * FROM accounts WHERE id = ?`,
`fetchone`. -/
def getAccountById (s : LedgerState) (accountId : Nat) : Option Account :=
  s.accounts.find? (fun a => a.id = accountId)

/-- `account.update_balance(account_id, amount, db)`:
`UPDATE accounts SET balance = balance + ? WHERE id = ?`. -/
def updateBalance (s : LedgerState) (accountId : Nat) (amount : Int) :
    LedgerState :=
  { s with accounts := s.accounts.map (fun a =>
      if a.id = accountId then { a with balance := a.balance + amount } else a) }

/-- `transaction.create(...)`: one `INSERT INTO transactions` followed by
`account.update_balance(account_id, amount, db)` on the same connection,
returning `cursor.lastrowid`. -/
def createTxn (s : LedgerState) (accountId : Nat) (amount : Int) (date : PDate)
    (ttype : String) (payee category notes project : Option String)
    (recurringId : Option Nat) : Nat × LedgerState :=
  let row : Txn := ⟨s.nextTxnId, accountId, amount, date, ttype, payee,
    category, notes, project, recurringId⟩
  let s1 : LedgerState :=
    { s with txns := s.txns ++ [row], nextTxnId := s.nextTxnId + 1 }
  (row.id, updateBalance s1 accountId amount)

/-- `transaction.create_transfer(...)`: looks up both account names, inserts
the source row with amount `-abs(amount)` and payee the destination account's
name (literal `"Transfer"` if the lookup returns nothing), inserts the
destination row with amount `abs(amount)` and payee the source account's name
(same fallback), then applies both balance updates.  The Python `payee`
parameter is accepted and ignored, exactly as in the source. -/
def createTransfer (s : LedgerState) (fromAccountId toAccountId : Nat)
    (amount : Int) (date : PDate) (payee category notes project : Option String)
    (recurringId : Option Nat) : LedgerState :=
  let _ := payee
  let fromAccount := getAccountById s fromAccountId
  let toAccount := getAccountById s toAccountId
  let row1 : Txn := ⟨s.nextTxnId, fromAccountId, -(abs amount), date, "transfer",
    some ((toAccount.map Account.name).getD "Transfer"),
    category, notes, project, recurringId⟩
  let row2 : Txn := ⟨s.nextTxnId + 1, toAccountId, abs amount, date, "transfer",
    some ((fromAccount.map Account.name).getD "Transfer"),
    category, notes, project, recurringId⟩
  let s1 : LedgerState :=
    { s with txns := s.txns ++ [row1, row2], nextTxnId := s.nextTxnId + 2 }
  updateBalance (updateBalance s1 fromAccountId (-(abs amount)))
    toAccountId (abs amount)

/-- Truthiness of the optional `transfer_account_id` argument
(`None` and `0` are falsy in Python). -/
def truthyId : Option Nat → Bool
  | none => false
  | some i => decide (i ≠ 0)

/-- Truthiness of an optional string (`None` and `""` are falsy in Python). -/
def truthyStr : Option String → Bool
  | none => false
  | some p => decide (p ≠ "")

/-- `transaction.update(transaction_id, account_id, amount, date, trans_type,
payee, category, notes, project, transfer_account_id)`.  Returns `false` and
the unchanged state when no row has id `transaction_id`; otherwise normalizes
the amount (transfer legs keep their sign, expense becomes `-abs`, anything
else `abs`), rewrites the row in place, reconciles the balances and returns
`true`. -/
def updateTxn (s : LedgerState) (transactionId accountId : Nat) (amount : Int)
    (date : PDate) (transType : String) (payee category notes project : Option String)
    (transferAccountId : Option Nat) : Bool × LedgerState :=
  match s.txns.find? (fun t => t.id = transactionId) with
  | none => (false, s)
  | some current =>
    let oldAmount := current.amount
    let oldAccountId := current.accountId
    let (newAmount, payee1) :=
      if transType = "transfer" ∧ truthyId transferAccountId then
        let destAccount := getAccountById s (transferAccountId.getD 0)
        if oldAmount < 0 then
          (-(abs amount), some ((destAccount.map Account.name).getD "Transfer"))
        else
          let sourceAccount := getAccountById s accountId
          (abs amount, some ((sourceAccount.map Account.name).getD "Transfer"))
      else
        (if transType = "expense" then -(abs amount) else abs amount, payee)
    let s1 : LedgerState :=
      { s with txns := s.txns.map (fun t =>
          if t.id = transactionId then
            ⟨t.id, accountId, newAmount, date, transType, payee1,
              category, notes, project, t.recurringId⟩
          else t) }
    let s2 : LedgerState :=
      if oldAccountId = accountId then
        updateBalance s1 oldAccountId (newAmount - oldAmount)
      else
        updateBalance (updateBalance s1 oldAccountId (-oldAmount))
          accountId newAmount
    (true, s2)

/-- `transaction.delete(transaction_id)`: returns `false` when the row does
not exist; otherwise deletes it and reverses its amount on its account. -/
def deleteTxn (s : LedgerState) (transactionId : Nat) : Bool × LedgerState :=
  match s.txns.find? (fun t => t.id = transactionId) with
  | none => (false, s)
  | some row =>
    let s1 : LedgerState :=
      { s with txns := s.txns.filter (fun t => ¬ t.id = transactionId) }
    (true, updateBalance s1 row.accountId (-row.amount))

/-- A row of the `recurring_transactions` table. `incrementAmount = none`
models both a SQL NULL and a row predating the `increment_amount` column
(whose access raises `KeyError`/`IndexError`); both are turned into `0` by
`process_due`, matching `r['increment_amount'] or 0` under its `try/except`. -/
structure RecurringDef where
  id : Nat
  accountId : Nat
  amount : Int
  ttype : String
  payee : Option String
  category : Option String
  notes : Option String
  project : Option String
  frequency : String
  startDate : PDate
  endDate : Option PDate
  lastProcessed : PDate
  incrementAmount : Option Int
  isActive : Bool
deriving DecidableEq, Repr

/-- Outcome of running a piece of `process_due`: `ok` is normal completion,
`exn` is a propagating Python exception (the payload is the state at the point
the exception escapes — every transaction created before it was already
committed), and `spin` means the computation was still looping when the fuel
ran out. -/
inductive RunOut (α : Type) where
  | ok (a : α)
  | exn (a : α)
  | spin (a : α)
deriving DecidableEq, Repr

/-- One iteration's ledger writes in the `while` loop of `process_due`: a
transfer definition with a truthy payee resolves the destination account by
name and creates a transfer pair (or, when the name resolves to nothing,
falls back to a single `-abs` row); an income/expense definition creates one
sign-normalized row.  `amount1` is the already-incremented running amount. -/
def materializeOccurrence (r : RecurringDef) (s : LedgerState)
    (amount1 : Int) (nextDate : PDate) : LedgerState :=
  if r.ttype = "transfer" ∧ truthyStr r.payee then
    match s.accounts.find? (fun a => a.name = r.payee.getD "") with
    | some destAccount =>
      createTransfer s r.accountId destAccount.id (abs amount1)
        nextDate r.payee r.category r.notes r.project (some r.id)
    | none =>
      (createTxn s r.accountId (-(abs amount1)) nextDate r.ttype
        r.payee r.category r.notes r.project (some r.id)).2
  else
    let amount :=
      if r.ttype = "expense" then -(abs amount1)
      else abs amount1
    (createTxn s r.accountId amount nextDate r.ttype
      r.payee r.category r.notes r.project (some r.id)).2

/-- The `while next_date <= today` loop of `RecurringModel.process_due`, for
one recurring definition `r`.  Arguments after `today`: remaining fuel, the
database state, `current_amount`, `last_processed`, `next_date`, `processed`.
Each iteration adds the increment, materializes one occurrence, bumps the
count, advances the cursor and recomputes `next_date`; a `ValueError` from
`_calculate_next_date` escapes as `exn`. -/
def processLoop (r : RecurringDef) (incrementAmount : Int) (today : PDate) :
    Nat → LedgerState → Int → PDate → PDate → Nat →
    RunOut (LedgerState × Int × PDate × Nat)
  | 0, s, currentAmount, lastProcessed, nextDate, processed =>
    if dateLE nextDate today then .spin (s, currentAmount, lastProcessed, processed)
    else .ok (s, currentAmount, lastProcessed, processed)
  | fuel + 1, s, currentAmount, lastProcessed, nextDate, processed =>
    if dateLE nextDate today then
      let currentAmount1 := currentAmount + incrementAmount
      let s1 := materializeOccurrence r s currentAmount1 nextDate
      match calculateNextDate nextDate r.frequency with
      | none => .exn (s1, currentAmount1, nextDate, processed + 1)
      | some nextDate1 =>
        processLoop r incrementAmount today fuel s1 currentAmount1 nextDate
          nextDate1 (processed + 1)
    else .ok (s, currentAmount, lastProcessed, processed)

/-- The per-definition body of `process_due`: read the watermark and amount,
default a missing/NULL increment to 0, compute the first `next_date` (a
`ValueError` here escapes before any occurrence is created), run the catch-up
loop, and persist `last_processed` and the final amount onto the definition
only if the watermark moved.  On `exn` the persisting update is never reached,
so the definition row is returned unchanged. -/
def processOne (fuel : Nat) (today : PDate) (s : LedgerState)
    (r : RecurringDef) : RunOut (LedgerState × RecurringDef × Nat) :=
  let incrementAmount := r.incrementAmount.getD 0
  match calculateNextDate r.lastProcessed r.frequency with
  | none => .exn (s, r, 0)
  | some nextDate =>
    match processLoop r incrementAmount today fuel s r.amount r.lastProcessed
        nextDate 0 with
    | .ok (s1, currentAmount1, lastProcessed1, processed) =>
      if lastProcessed1 ≠ r.lastProcessed then
        .ok (s1, { r with lastProcessed := lastProcessed1,
                          amount := currentAmount1 }, processed)
      else .ok (s1, r, processed)
    | .exn (s1, _, _, processed) => .exn (s1, r, processed)
    | .spin (s1, _, _, processed) => .spin (s1, r, processed)

/-- The selection `WHERE is_active = 1 AND (end_date IS NULL OR
end_date >= today)` of `process_due` (ISO date strings compare as dates). -/
def isDue (today : PDate) (r : RecurringDef) : Bool :=
  r.isActive &&
    (match r.endDate with
     | none => true
     | some e => decide (dateLE today e))

/-- The `for r in recurring` loop of `process_due`: definitions are processed
in order with no failure boundary around the body, so an `exn` from one
definition escapes at once and the remaining definitions are returned
untouched; on normal completion the counts are summed.  The result carries
the updated definition rows positionally. -/
def processDefs (fuel : Nat) (today : PDate) :
    LedgerState → List RecurringDef →
    RunOut (LedgerState × List RecurringDef × Nat)
  | s, [] => .ok (s, [], 0)
  | s, r :: rest =>
    match processOne fuel today s r with
    | .ok (s1, r1, c1) =>
      match processDefs fuel today s1 rest with
      | .ok (s2, rest2, c2) => .ok (s2, r1 :: rest2, c1 + c2)
      | .exn (s2, rest2, c2) => .exn (s2, r1 :: rest2, c1 + c2)
      | .spin (s2, rest2, c2) => .spin (s2, r1 :: rest2, c1 + c2)
    | .exn (s1, r1, c1) => .exn (s1, r1 :: rest, c1)
    | .spin (s1, r1, c1) => .spin (s1, r1 :: rest, c1)

/-- `RecurringModel.process_due()`: select the active, not-yet-expired
definitions and process each in order.  `ok (s, defs, n)` models the Python
call returning `n`; `exn _` models the call raising. -/
def processDue (fuel : Nat) (today : PDate) (s : LedgerState)
    (defs : List RecurringDef) : RunOut (LedgerState × List RecurringDef × Nat) :=
  processDefs fuel today s (defs.filter (isDue today))

/-- The payload of a run outcome, whichever way the run ended. -/
def RunOut.val : RunOut α → α
  | .ok a => a
  | .exn a => a
  | .spin a => a

/-- Did the run complete normally (the Python call returned)? -/
def RunOut.isOk : RunOut α → Bool
  | .ok _ => true
  | _ => false

/-- Did the run exhaust its fuel while still looping? -/
def RunOut.isSpin : RunOut α → Bool
  | .spin _ => true
  | _ => false

/-- One call to a mutating operation of the transaction ledger service. -/
inductive LedgerOp where
  | create (accountId : Nat) (amount : Int) (date : PDate) (ttype : String)
      (payee category notes project : Option String) (recurringId : Option Nat)
  | transfer (fromAccountId toAccountId : Nat) (amount : Int) (date : PDate)
      (payee category notes project : Option String) (recurringId : Option Nat)
  | update (transactionId accountId : Nat) (amount : Int) (date : PDate)
      (ttype : String) (payee category notes project : Option String)
      (transferAccountId : Option Nat)
  | delete (transactionId : Nat)
deriving DecidableEq, Repr

/-- Apply one ledger operation to the database state (return values dropped;
a failed update/delete leaves the state unchanged). -/
def applyOp (s : LedgerState) : LedgerOp → LedgerState
  | .create aid amount date ttype payee category notes project rid =>
    (createTxn s aid amount date ttype payee category notes project rid).2
  | .transfer fromId toId amount date payee category notes project rid =>
    createTransfer s fromId toId amount date payee category notes project rid
  | .update tid aid amount date ttype payee category notes project taid =>
    (updateTxn s tid aid amount date ttype payee category notes project taid).2
  | .delete tid => (deleteTxn s tid).2

/-- Apply a sequence of ledger operations in order. -/
def applyOps (s : LedgerState) : List LedgerOp → LedgerState
  | [] => s
  | op :: ops => applyOps (applyOp s op) ops

/-- `SELECT SUM(amount) FROM transactions WHERE account_id = i` over a list
of rows. -/
def txnSum (l : List Txn) (i : Nat) : Int :=
  ((l.filter (fun t => t.accountId = i)).map Txn.amount).sum

/-- The balance invariant: every account's stored balance equals the sum of
the amounts of the transaction rows currently referencing it. -/
def balanceInv (s : LedgerState) : Prop :=
  ∀ a ∈ s.accounts, a.balance = txnSum s.txns a.id

/-- Well-formedness of the transaction ids, as guaranteed by the SQLite
integer primary key: every stored id is below the autoincrement counter and
ids are pairwise distinct. -/
def idsOk (s : LedgerState) : Prop :=
  (∀ t ∈ s.txns, t.id < s.nextTxnId) ∧ (s.txns.map Txn.id).Nodup

/-- A well-formed ledger state: sound ids and the balance invariant. -/
def ledgerWF (s : LedgerState) : Prop := idsOk s ∧ balanceInv s

instance (s : LedgerState) : Decidable (balanceInv s) := by
  unfold balanceInv; infer_instance

instance (s : LedgerState) : Decidable (idsOk s) := by
  unfold idsOk; infer_instance

instance (s : LedgerState) : Decidable (ledgerWF s) := by
  unfold ledgerWF; infer_instance

/-- Modelled from the spec: the occurrence dates `process_due` owes one
recurring definition, obtained by repeatedly advancing a cursor by the
definition's frequency while the advanced date is not after `today`
(`nextDate` is the already-advanced cursor, as in the source's loop entry).
`none` when the advancing raises or the fuel runs out. -/
def specDates : Nat → String → PDate → PDate → Option (List PDate)
  | 0, _, _, _ => none
  | fuel + 1, frequency, nextDate, today =>
    if dateLE nextDate today then
      match calculateNextDate nextDate frequency with
      | none => none
      | some nextDate1 =>
        (specDates fuel frequency nextDate1 today).map (fun ds => nextDate :: ds)
    else some []

/-- A measure that is strictly monotone along `dateLT` on valid dates
(month ≤ 12 < 13, day ≤ 31 < 32). -/
def dateRank (d : PDate) : Nat := (d.year * 13 + d.month) * 32 + d.day

/-- The six frequencies `_calculate_next_date` knows. -/
def knownFreqs : List String :=
  ["daily", "weekly", "biweekly", "monthly", "quarterly", "yearly"]

/-- A sample date used by concrete instances. -/
def sampleDate : PDate := ⟨2024, 5, 1⟩

/-- A sample two-account ledger with an empty transaction table. -/
def sampleLedger : LedgerState :=
  ⟨[⟨1, "Checking", "checking", 0⟩, ⟨2, "Savings", "savings", 0⟩], [], 1⟩

/-- A ledger whose single transaction is an expense of 50 on account 1,
with the matching balance. -/
def expenseLedger : LedgerState :=
  ⟨[⟨1, "Checking", "checking", -50⟩],
   [⟨7, 1, -50, sampleDate, "expense", none, none, none, none, none⟩], 8⟩

/-- A ledger holding the destination leg of a transfer: account 2 owns
row 7 with amount +50, whose counterparty is account 1. -/
def destLegLedger : LedgerState :=
  ⟨[⟨1, "Checking", "checking", -50⟩, ⟨2, "Savings", "savings", 50⟩],
   [⟨6, 1, -50, sampleDate, "transfer", some "Savings", none, none, none, none⟩,
    ⟨7, 2, 50, sampleDate, "transfer", some "Checking", none, none, none, none⟩], 8⟩

/-- A monthly income definition on account 1 with watermark 2024-01-15. -/
def monthlyDef : RecurringDef :=
  ⟨1, 1, 100, "income", none, none, none, none, "monthly",
   ⟨2024, 1, 15⟩, none, ⟨2024, 1, 15⟩, none, true⟩

/-- A monthly definition whose watermark 2024-01-31 makes the very first
`_calculate_next_date` call raise (there is no February 31). -/
def jan31Def : RecurringDef :=
  ⟨2, 1, 100, "income", none, none, none, none, "monthly",
   ⟨2024, 1, 31⟩, none, ⟨2024, 1, 31⟩, none, true⟩

/-- A monthly definition whose watermark 2023-12-31 lets one occurrence
(2024-01-31) be created before `_calculate_next_date` raises on it. -/
def dec31Def : RecurringDef :=
  ⟨3, 1, 100, "income", none, none, none, none, "monthly",
   ⟨2023, 12, 31⟩, none, ⟨2023, 12, 31⟩, none, true⟩

end MoneyTracker

namespace MoneyTracker

lemma updateBalance_txns (s : LedgerState) (aid : Nat) (amt : Int) :
    (updateBalance s aid amt).txns = s.txns := rfl

lemma updateBalance_nextTxnId (s : LedgerState) (aid : Nat) (amt : Int) :
    (updateBalance s aid amt).nextTxnId = s.nextTxnId := rfl

lemma updateBalance_accounts (s : LedgerState) (aid : Nat) (amt : Int) :
    (updateBalance s aid amt).accounts = s.accounts.map (fun a =>
      if a.id = aid then { a with balance := a.balance + amt } else a) := rfl

lemma createTransfer_accounts (s : LedgerState) (fromId toId : Nat)
    (amount : Int) (date : PDate) (payee category notes project : Option String)
    (rid : Option Nat) :
    (createTransfer s fromId toId amount date payee category notes project
        rid).accounts =
      (s.accounts.map (fun a =>
        if a.id = fromId then { a with balance := a.balance + -(abs amount) }
        else a)).map (fun a =>
        if a.id = toId then { a with balance := a.balance + abs amount }
        else a) := rfl

/-- Claim C4: `create_transfer(A, B, a, d, …)` appends exactly two rows of
type `transfer` dated `d` — amount `-abs a` on `A` with payee the name of `B`
(falling back to the literal `"Transfer"` when the lookup returns nothing)
and amount `abs a` on `B` with payee the name of `A` (same fallback) — and
shifts `A`'s balance by `-abs a` and `B`'s by `abs a`.  The equations hold
with no hypothesis on the account lookups, so a failed name lookup never
aborts the transfer. -/
theorem c4_transfer_symmetry (s : LedgerState) (fromAccountId toAccountId : Nat)
    (amount : Int) (date : PDate) (payee category notes project : Option String)
    (recurringId : Option Nat) (hne : fromAccountId ≠ toAccountId) :
    (createTransfer s fromAccountId toAccountId amount date payee category
        notes project recurringId).txns =
      s.txns ++
        [⟨s.nextTxnId, fromAccountId, -(abs amount), date, "transfer",
           some (((getAccountById s toAccountId).map Account.name).getD "Transfer"),
           category, notes, project, recurringId⟩,
         ⟨s.nextTxnId + 1, toAccountId, abs amount, date, "transfer",
           some (((getAccountById s fromAccountId).map Account.name).getD "Transfer"),
           category, notes, project, recurringId⟩] ∧
    (createTransfer s fromAccountId toAccountId amount date payee category
        notes project recurringId).accounts =
      s.accounts.map (fun acc =>
        if acc.id = fromAccountId then
          { acc with balance := acc.balance - abs amount }
        else if acc.id = toAccountId then
          { acc with balance := acc.balance + abs amount }
        else acc) := by
  constructor
  · rfl
  · rw [createTransfer_accounts, List.map_map]
    refine List.map_congr_left ?_
    intro acc _
    dsimp only [Function.comp]
    by_cases h1 : acc.id = fromAccountId
    · have h2 : acc.id ≠ toAccountId := by rw [h1]; exact hne
      rw [if_pos h1]
      dsimp only
      rw [if_neg h2, if_pos h1, sub_eq_add_neg]
    · by_cases h2 : acc.id = toAccountId
      · rw [if_neg h1]
        rw [if_pos h2, if_neg h1]
      · rw [if_neg h1]
        rw [if_neg h2, if_neg h1]

/-- Witness for C4 at a concrete two-account ledger. -/
theorem c4_transfer_symmetry_witness :
    (1 : Nat) ≠ 2 ∧
    ((createTransfer sampleLedger 1 2 100 sampleDate none none none none
        none).txns =
      sampleLedger.txns ++
        [⟨sampleLedger.nextTxnId, 1, -(abs 100), sampleDate, "transfer",
           some (((getAccountById sampleLedger 2).map Account.name).getD "Transfer"),
           none, none, none, none⟩,
         ⟨sampleLedger.nextTxnId + 1, 2, abs 100, sampleDate, "transfer",
           some (((getAccountById sampleLedger 1).map Account.name).getD "Transfer"),
           none, none, none, none⟩] ∧
    (createTransfer sampleLedger 1 2 100 sampleDate none none none none
        none).accounts =
      sampleLedger.accounts.map (fun acc =>
        if acc.id = 1 then { acc with balance := acc.balance - abs 100 }
        else if acc.id = 2 then { acc with balance := acc.balance + abs 100 }
        else acc)) :=
  ⟨by decide,
   c4_transfer_symmetry sampleLedger 1 2 100 sampleDate none none none none
     none (by decide)⟩

/-- Claim C3: `update` returns `false` and changes nothing when the
transaction id does not exist; on an existing row (outside the transfer
branch) it stores `-abs amount` for an expense and `abs amount` otherwise,
applying `new - old` to the unchanged owning account, or reversing the old
amount on the old account and applying the new amount on the new one; on
the concrete -50 expense updated to 80 the stored amount is -80 and the
balance drops by exactly 30. -/
theorem c3_update_reconciliation :
    (∀ (s : LedgerState) (tid aid : Nat) (amount : Int) (date : PDate)
       (ttype : String) (payee category notes project : Option String)
       (taid : Option Nat),
       s.txns.find? (fun t => t.id = tid) = none →
       updateTxn s tid aid amount date ttype payee category notes project
         taid = (false, s)) ∧
    (∀ (s : LedgerState) (tid aid : Nat) (amount : Int) (date : PDate)
       (ttype : String) (payee category notes project : Option String)
       (taid : Option Nat) (cur : Txn),
       s.txns.find? (fun t => t.id = tid) = some cur →
       ¬(ttype = "transfer" ∧ truthyId taid = true) →
       ((updateTxn s tid aid amount date ttype payee category notes project
           taid).1 = true ∧
        (updateTxn s tid aid amount date ttype payee category notes project
           taid).2.txns = s.txns.map (fun t =>
             if t.id = tid then
               ⟨t.id, aid,
                 if ttype = "expense" then -(abs amount) else abs amount,
                 date, ttype, payee, category, notes, project, t.recurringId⟩
             else t) ∧
        (cur.accountId = aid →
          (updateTxn s tid aid amount date ttype payee category notes project
             taid).2.accounts = s.accounts.map (fun acc =>
               if acc.id = aid then
                 { acc with balance := acc.balance +
                     ((if ttype = "expense" then -(abs amount) else abs amount)
                       - cur.amount) }
               else acc)) ∧
        (cur.accountId ≠ aid →
          (updateTxn s tid aid amount date ttype payee category notes project
             taid).2.accounts = s.accounts.map (fun acc =>
               if acc.id = cur.accountId then
                 { acc with balance := acc.balance - cur.amount }
               else if acc.id = aid then
                 { acc with balance := acc.balance +
                     (if ttype = "expense" then -(abs amount) else abs amount) }
               else acc)))) ∧
    ((updateTxn expenseLedger 7 1 80 sampleDate "expense" none none none none
        none).1 = true ∧
     ((updateTxn expenseLedger 7 1 80 sampleDate "expense" none none none none
        none).2.txns.find? (fun t => t.id = 7)).map Txn.amount =
       some (-80) ∧
     getAccountById (updateTxn expenseLedger 7 1 80 sampleDate "expense" none
        none none none none).2 1 =
       some ⟨1, "Checking", "checking", -80⟩ ∧
     (-80 : Int) = -50 - 30) := by
  refine ⟨?_, ?_, by decide⟩
  · intro s tid aid amount date ttype payee category notes project taid h
    simp only [updateTxn, h]
  · intro s tid aid amount date ttype payee category notes project taid cur
      hfind hnt
    have hstep : updateTxn s tid aid amount date ttype payee category notes
        project taid =
        (true,
          if cur.accountId = aid then
            updateBalance
              { s with txns := s.txns.map (fun t =>
                  if t.id = tid then
                    ⟨t.id, aid,
                      if ttype = "expense" then -(abs amount) else abs amount,
                      date, ttype, payee, category, notes, project,
                      t.recurringId⟩
                  else t) }
              cur.accountId
              ((if ttype = "expense" then -(abs amount) else abs amount)
                - cur.amount)
          else
            updateBalance
              (updateBalance
                { s with txns := s.txns.map (fun t =>
                    if t.id = tid then
                      ⟨t.id, aid,
                        if ttype = "expense" then -(abs amount) else abs amount,
                        date, ttype, payee, category, notes, project,
                        t.recurringId⟩
                    else t) }
                cur.accountId (-cur.amount))
              aid
              (if ttype = "expense" then -(abs amount) else abs amount)) := by
      simp only [updateTxn, hfind]
      rw [if_neg hnt]
    rw [hstep]
    refine ⟨rfl, ?_, ?_, ?_⟩
    · by_cases hacc : cur.accountId = aid
      · rw [if_pos hacc, updateBalance_txns]
      · rw [if_neg hacc, updateBalance_txns, updateBalance_txns]
    · intro hacc
      rw [if_pos hacc, updateBalance_accounts, hacc]
    · intro hacc
      rw [if_neg hacc, updateBalance_accounts, updateBalance_accounts,
        List.map_map]
      refine List.map_congr_left ?_
      intro acc _
      dsimp only [Function.comp]
      by_cases h1 : acc.id = cur.accountId
      · have h2 : acc.id ≠ aid := by rw [h1]; exact hacc
        rw [if_pos h1]
        dsimp only
        rw [if_neg h2, if_pos h1, sub_eq_add_neg]
      · by_cases h2 : acc.id = aid
        · rw [if_neg h1]
          rw [if_pos h2, if_neg h1]
        · rw [if_neg h1]
          rw [if_neg h2, if_neg h1]

/-- Witness for C3: the general clauses applied to the -50 expense ledger. -/
theorem c3_update_reconciliation_witness :
    (expenseLedger.txns.find? (fun t => t.id = 9) = none ∧
      updateTxn expenseLedger 9 1 80 sampleDate "expense" none none none none
        none = (false, expenseLedger)) ∧
    (expenseLedger.txns.find? (fun t => t.id = 7) =
        some ⟨7, 1, -50, sampleDate, "expense", none, none, none, none, none⟩ ∧
      (updateTxn expenseLedger 7 1 80 sampleDate "expense" none none none none
        none).1 = true) :=
  ⟨⟨by decide,
    c3_update_reconciliation.1 expenseLedger 9 1 80 sampleDate "expense" none
      none none none none (by decide)⟩,
   ⟨by decide,
    (c3_update_reconciliation.2.1 expenseLedger 7 1 80 sampleDate "expense"
      none none none none none
      ⟨7, 1, -50, sampleDate, "expense", none, none, none, none, none⟩
      (by decide) (by decide)).1⟩⟩

/-- Counterexample to C7: editing the destination leg (row 7, amount +50 on
account 2 "Savings", counterparty account 1 "Checking" supplied as
`transfer_account_id`) re-derives the payee from `account_id` — the row's own
new owning account — so the payee becomes "Savings", not the counterparty's
name "Checking". -/
theorem c7_counterexample :
    ((updateTxn destLegLedger 7 2 60 sampleDate "transfer" none none none none
        (some 1)).2.txns.find? (fun t => t.id = 7)).map Txn.payee =
      some (some "Savings") ∧
    (getAccountById destLegLedger 1).map Account.name = some "Checking" ∧
    (getAccountById destLegLedger 2).map Account.name = some "Savings" ∧
    some (some "Savings") ≠ some (some "Checking") := by decide

/-- Claim C7 (amended): with `new_type = transfer` and a truthy
`transfer_account_id`, the sign of the stored amount is inferred from the
existing amount (negative means source leg and `-abs amount`, non-negative
means destination leg and `abs amount`), only the row with the given id is
rewritten; the payee of the source leg is re-derived from the
`transfer_account_id` account's name, while the payee of the destination leg
is derived from the name of the new owning account `account_id` (not the
counterparty), both falling back to "Transfer". -/
theorem c7_transfer_leg_update (s : LedgerState) (tid aid : Nat)
    (amount : Int) (date : PDate) (payee category notes project : Option String)
    (taid : Option Nat) (cur : Txn)
    (hfind : s.txns.find? (fun t => t.id = tid) = some cur)
    (htr : truthyId taid = true) :
    (updateTxn s tid aid amount date "transfer" payee category notes project
        taid).1 = true ∧
    (cur.amount < 0 →
      (updateTxn s tid aid amount date "transfer" payee category notes project
          taid).2.txns = s.txns.map (fun t =>
            if t.id = tid then
              ⟨t.id, aid, -(abs amount), date, "transfer",
                some (((getAccountById s (taid.getD 0)).map Account.name).getD
                  "Transfer"),
                category, notes, project, t.recurringId⟩
            else t)) ∧
    (0 ≤ cur.amount →
      (updateTxn s tid aid amount date "transfer" payee category notes project
          taid).2.txns = s.txns.map (fun t =>
            if t.id = tid then
              ⟨t.id, aid, abs amount, date, "transfer",
                some (((getAccountById s aid).map Account.name).getD
                  "Transfer"),
                category, notes, project, t.recurringId⟩
            else t)) := by
  by_cases hneg : cur.amount < 0
  · have hstep : updateTxn s tid aid amount date "transfer" payee category
        notes project taid =
        (true,
          if cur.accountId = aid then
            updateBalance
              { s with txns := s.txns.map (fun t =>
                  if t.id = tid then
                    ⟨t.id, aid, -(abs amount), date, "transfer",
                      some (((getAccountById s (taid.getD 0)).map
                        Account.name).getD "Transfer"),
                      category, notes, project, t.recurringId⟩
                  else t) }
              cur.accountId (-(abs amount) - cur.amount)
          else
            updateBalance
              (updateBalance
                { s with txns := s.txns.map (fun t =>
                    if t.id = tid then
                      ⟨t.id, aid, -(abs amount), date, "transfer",
                        some (((getAccountById s (taid.getD 0)).map
                          Account.name).getD "Transfer"),
                        category, notes, project, t.recurringId⟩
                    else t) }
                cur.accountId (-cur.amount))
              aid (-(abs amount))) := by
      simp only [updateTxn, hfind]
      rw [if_pos (⟨trivial, htr⟩ : True ∧ truthyId taid = true), if_pos hneg]
    refine ⟨by rw [hstep], fun _ => ?_, fun h0 => absurd hneg (not_lt.mpr h0)⟩
    rw [hstep]
    by_cases hacc : cur.accountId = aid
    · rw [if_pos hacc, updateBalance_txns]
    · rw [if_neg hacc, updateBalance_txns, updateBalance_txns]
  · have hstep : updateTxn s tid aid amount date "transfer" payee category
        notes project taid =
        (true,
          if cur.accountId = aid then
            updateBalance
              { s with txns := s.txns.map (fun t =>
                  if t.id = tid then
                    ⟨t.id, aid, abs amount, date, "transfer",
                      some (((getAccountById s aid).map Account.name).getD
                        "Transfer"),
                      category, notes, project, t.recurringId⟩
                  else t) }
              cur.accountId (abs amount - cur.amount)
          else
            updateBalance
              (updateBalance
                { s with txns := s.txns.map (fun t =>
                    if t.id = tid then
                      ⟨t.id, aid, abs amount, date, "transfer",
                        some (((getAccountById s aid).map Account.name).getD
                          "Transfer"),
                        category, notes, project, t.recurringId⟩
                    else t) }
                cur.accountId (-cur.amount))
              aid (abs amount)) := by
      simp only [updateTxn, hfind]
      rw [if_pos (⟨trivial, htr⟩ : True ∧ truthyId taid = true), if_neg hneg]
    refine ⟨by rw [hstep], fun hlt => absurd hlt hneg, fun _ => ?_⟩
    rw [hstep]
    by_cases hacc : cur.accountId = aid
    · rw [if_pos hacc, updateBalance_txns]
    · rw [if_neg hacc, updateBalance_txns, updateBalance_txns]

/-- Witness for C7 (amended) on the concrete destination-leg ledger. -/
theorem c7_transfer_leg_update_witness :
    destLegLedger.txns.find? (fun t => t.id = 7) =
      some ⟨7, 2, 50, sampleDate, "transfer", some "Checking", none, none,
        none, none⟩ ∧
    truthyId (some 1) = true ∧
    ((updateTxn destLegLedger 7 2 60 sampleDate "transfer" none none none
        none (some 1)).1 = true ∧
     ((50 : Int) < 0 →
       (updateTxn destLegLedger 7 2 60 sampleDate "transfer" none none none
          none (some 1)).2.txns = destLegLedger.txns.map (fun t =>
            if t.id = 7 then
              ⟨t.id, 2, -(abs 60), sampleDate, "transfer",
                some (((getAccountById destLegLedger 1).map Account.name).getD
                  "Transfer"),
                none, none, none, t.recurringId⟩
            else t)) ∧
     ((0 : Int) ≤ 50 →
       (updateTxn destLegLedger 7 2 60 sampleDate "transfer" none none none
          none (some 1)).2.txns = destLegLedger.txns.map (fun t =>
            if t.id = 7 then
              ⟨t.id, 2, abs 60, sampleDate, "transfer",
                some (((getAccountById destLegLedger 2).map Account.name).getD
                  "Transfer"),
                none, none, none, t.recurringId⟩
            else t))) :=
  ⟨by decide, by decide,
   c7_transfer_leg_update destLegLedger 7 2 60 sampleDate none none none none
     (some 1)
     ⟨7, 2, 50, sampleDate, "transfer", some "Checking", none, none, none,
       none⟩
     (by decide) (by decide)⟩

lemma txnSum_nil (i : Nat) : txnSum [] i = 0 := rfl

lemma txnSum_cons (t : Txn) (l : List Txn) (i : Nat) :
    txnSum (t :: l) i = (if t.accountId = i then t.amount else 0) + txnSum l i := by
  by_cases h : t.accountId = i <;> simp [txnSum, List.filter_cons, h]

lemma txnSum_append (l1 l2 : List Txn) (i : Nat) :
    txnSum (l1 ++ l2) i = txnSum l1 i + txnSum l2 i := by
  simp [txnSum, List.filter_append]

lemma txnSum_single (t : Txn) (i : Nat) :
    txnSum [t] i = if t.accountId = i then t.amount else 0 := by
  rw [txnSum_cons, txnSum_nil, add_zero]

/-- If every account's balance moved by `δ` of its id and every account's
transaction sum moved by the same `δ`, the balance invariant survives. -/
lemma balanceInv_delta (s s' : LedgerState) (δ : Nat → Int)
    (hacc : s'.accounts = s.accounts.map (fun a =>
      { a with balance := a.balance + δ a.id }))
    (htx : ∀ i, txnSum s'.txns i = txnSum s.txns i + δ i)
    (h : balanceInv s) : balanceInv s' := by
  intro a' ha'
  rw [hacc] at ha'
  obtain ⟨a, ha, rfl⟩ := List.mem_map.mp ha'
  show a.balance + δ a.id = txnSum s'.txns a.id
  rw [htx, h a ha]

/-- Replacing the unique row with id `tid` moves every account's transaction
sum by removing the old row's contribution and adding the new one's. -/
lemma txnSum_map_replace (l : List Txn) (tid : Nat) (cur : Txn) (f : Txn → Txn)
    (hfind : l.find? (fun t => t.id = tid) = some cur)
    (hnd : (l.map Txn.id).Nodup) (i : Nat) :
    txnSum (l.map (fun t => if t.id = tid then f t else t)) i =
      txnSum l i - (if cur.accountId = i then cur.amount else 0)
        + (if (f cur).accountId = i then (f cur).amount else 0) := by
  induction l with
  | nil => simp at hfind
  | cons hd tl ih =>
    rw [List.find?_cons] at hfind
    have hnd0 : (hd.id :: tl.map Txn.id).Nodup := by simpa using hnd
    have hnotin : hd.id ∉ tl.map Txn.id := (List.nodup_cons.mp hnd0).1
    have hnd' : (tl.map Txn.id).Nodup := (List.nodup_cons.mp hnd0).2
    by_cases hh : hd.id = tid
    · rw [decide_eq_true hh] at hfind
      have hfind' : some hd = some cur := hfind
      injection hfind' with hcur
      subst hcur
      have htl : ∀ t ∈ tl, ¬ t.id = tid := by
        intro t ht hts
        have hmem : t.id ∈ tl.map Txn.id := List.mem_map_of_mem Txn.id ht
        rw [hts, ← hh] at hmem
        exact hnotin hmem
      have hmap : tl.map (fun t => if t.id = tid then f t else t) = tl := by
        rw [List.map_congr_left (fun t ht => if_neg (htl t ht))]
        exact List.map_id' tl
      rw [List.map_cons, if_pos hh, hmap, txnSum_cons, txnSum_cons]
      ring
    · rw [decide_eq_false hh] at hfind
      have hfind' : tl.find? (fun t => t.id = tid) = some cur := hfind
      rw [List.map_cons, if_neg hh, txnSum_cons, txnSum_cons,
        ih hfind' hnd']
      ring

/-- Filtering out the unique row with id `tid` removes exactly its
contribution from every account's transaction sum. -/
lemma txnSum_filter_out (l : List Txn) (tid : Nat) (cur : Txn)
    (hfind : l.find? (fun t => t.id = tid) = some cur)
    (hnd : (l.map Txn.id).Nodup) (i : Nat) :
    txnSum (l.filter (fun t => ¬ t.id = tid)) i =
      txnSum l i - (if cur.accountId = i then cur.amount else 0) := by
  induction l with
  | nil => simp at hfind
  | cons hd tl ih =>
    rw [List.find?_cons] at hfind
    have hnd0 : (hd.id :: tl.map Txn.id).Nodup := by simpa using hnd
    have hnotin : hd.id ∉ tl.map Txn.id := (List.nodup_cons.mp hnd0).1
    have hnd' : (tl.map Txn.id).Nodup := (List.nodup_cons.mp hnd0).2
    by_cases hh : hd.id = tid
    · rw [decide_eq_true hh] at hfind
      have hfind' : some hd = some cur := hfind
      injection hfind' with hcur
      subst hcur
      have htl : ∀ t ∈ tl, ¬ t.id = tid := by
        intro t ht hts
        have hmem : t.id ∈ tl.map Txn.id := List.mem_map_of_mem Txn.id ht
        rw [hts, ← hh] at hmem
        exact hnotin hmem
      have hfl : tl.filter (fun t => ¬ t.id = tid) = tl := by
        rw [List.filter_eq_self]
        intro t ht
        simpa using htl t ht
      have hstep : (hd :: tl).filter (fun t => ¬ t.id = tid) = tl := by
        rw [List.filter_cons, if_neg (by simp [hh]), hfl]
      rw [hstep, txnSum_cons]
      ring
    · rw [decide_eq_false hh] at hfind
      have hfind' : tl.find? (fun t => t.id = tid) = some cur := hfind
      have hstep : (hd :: tl).filter (fun t => ¬ t.id = tid) =
          hd :: tl.filter (fun t => ¬ t.id = tid) := by
        rw [List.filter_cons, if_pos (by simp [hh])]
      rw [hstep, txnSum_cons, txnSum_cons, ih hfind' hnd']
      ring

lemma balanceInv_createTxn (s : LedgerState) (aid : Nat) (amount : Int)
    (date : PDate) (ttype : String) (payee category notes project : Option String)
    (rid : Option Nat) (h : balanceInv s) :
    balanceInv (createTxn s aid amount date ttype payee category notes project
      rid).2 := by
  refine balanceInv_delta s _ (fun i => if aid = i then amount else 0) ?_ ?_ h
  · show s.accounts.map _ = s.accounts.map _
    refine List.map_congr_left ?_
    intro a _
    dsimp only
    by_cases hid : a.id = aid
    · rw [if_pos hid, if_pos hid.symm]
    · rw [if_neg hid, if_neg (fun hc => hid hc.symm), add_zero]
  · intro i
    show txnSum (s.txns ++ [⟨s.nextTxnId, aid, amount, date, ttype, payee,
      category, notes, project, rid⟩]) i = _
    rw [txnSum_append, txnSum_single]

lemma balanceInv_createTransfer (s : LedgerState) (fromId toId : Nat)
    (amount : Int) (date : PDate) (payee category notes project : Option String)
    (rid : Option Nat) (h : balanceInv s) :
    balanceInv (createTransfer s fromId toId amount date payee category notes
      project rid) := by
  refine balanceInv_delta s _ (fun i =>
    (if fromId = i then -(abs amount) else 0) +
      (if toId = i then abs amount else 0)) ?_ ?_ h
  · rw [createTransfer_accounts, List.map_map]
    refine List.map_congr_left ?_
    intro a _
    dsimp only [Function.comp]
    by_cases h1 : a.id = fromId
    · rw [if_pos h1]
      dsimp only
      by_cases h2 : a.id = toId
      · rw [if_pos h2, if_pos h1.symm, if_pos h2.symm]
        congr 1
        ring
      · rw [if_neg h2, if_pos h1.symm, if_neg (fun hc => h2 hc.symm), add_zero]
    · rw [if_neg h1]
      by_cases h2 : a.id = toId
      · rw [if_pos h2, if_neg (fun hc => h1 hc.symm), if_pos h2.symm, zero_add]
      · rw [if_neg h2, if_neg (fun hc => h1 hc.symm),
          if_neg (fun hc => h2 hc.symm), add_zero, add_zero]
  · intro i
    show txnSum (s.txns ++ [_, _]) i = _
    rw [txnSum_append, txnSum_cons, txnSum_single]

lemma balanceInv_update_aux (s : LedgerState) (tid aid : Nat) (cur : Txn)
    (newA : Int) (newP : Option String) (date : PDate) (ttype : String)
    (category notes project : Option String)
    (hfind : s.txns.find? (fun t => t.id = tid) = some cur)
    (hnd : (s.txns.map Txn.id).Nodup) (h : balanceInv s) :
    balanceInv
      (if cur.accountId = aid then
        updateBalance
          { s with txns := s.txns.map (fun t =>
              if t.id = tid then
                ⟨t.id, aid, newA, date, ttype, newP, category, notes, project,
                  t.recurringId⟩
              else t) }
          cur.accountId (newA - cur.amount)
      else
        updateBalance
          (updateBalance
            { s with txns := s.txns.map (fun t =>
                if t.id = tid then
                  ⟨t.id, aid, newA, date, ttype, newP, category, notes,
                    project, t.recurringId⟩
                else t) }
            cur.accountId (-cur.amount))
          aid newA) := by
  by_cases hacc : cur.accountId = aid
  · rw [if_pos hacc]
    refine balanceInv_delta s _
      (fun i => if cur.accountId = i then newA - cur.amount else 0) ?_ ?_ h
    · show s.accounts.map _ = s.accounts.map _
      refine List.map_congr_left ?_
      intro a _
      dsimp only
      by_cases hid : a.id = cur.accountId
      · rw [if_pos hid, if_pos hid.symm]
      · rw [if_neg hid, if_neg (fun hc => hid hc.symm), add_zero]
    · intro i
      show txnSum (s.txns.map _) i = _
      rw [txnSum_map_replace s.txns tid cur _ hfind hnd i]
      dsimp only
      by_cases hci : cur.accountId = i
      · have hai : aid = i := hacc ▸ hci
        simp only [if_pos hci, if_pos hai]
        ring
      · have hai : ¬ aid = i := fun hc => hci (hacc.symm ▸ hc)
        simp only [if_neg hci, if_neg hai]
        ring
  · rw [if_neg hacc]
    refine balanceInv_delta s _
      (fun i => (if cur.accountId = i then -cur.amount else 0) +
        (if aid = i then newA else 0)) ?_ ?_ h
    · show (s.accounts.map _).map _ = s.accounts.map _
      rw [List.map_map]
      refine List.map_congr_left ?_
      intro a _
      dsimp only [Function.comp]
      by_cases h1 : a.id = cur.accountId
      · rw [if_pos h1]
        dsimp only
        by_cases h2 : a.id = aid
        · exact absurd (h1.symm.trans h2) hacc
        · rw [if_neg h2, if_pos h1.symm, if_neg (fun hc => h2 hc.symm),
            add_zero]
      · rw [if_neg h1]
        by_cases h2 : a.id = aid
        · rw [if_pos h2, if_neg (fun hc => h1 hc.symm), if_pos h2.symm,
            zero_add]
        · rw [if_neg h2, if_neg (fun hc => h1 hc.symm),
            if_neg (fun hc => h2 hc.symm), add_zero, add_zero]
    · intro i
      show txnSum (s.txns.map _) i = _
      rw [txnSum_map_replace s.txns tid cur _ hfind hnd i]
      dsimp only
      by_cases hci : cur.accountId = i <;> by_cases hai : aid = i <;>
        simp only [if_pos, if_neg, hci, hai, if_true, if_false] <;> ring

lemma balanceInv_updateTxn (s : LedgerState) (tid aid : Nat) (amount : Int)
    (date : PDate) (ttype : String) (payee category notes project : Option String)
    (taid : Option Nat) (hnd : (s.txns.map Txn.id).Nodup) (h : balanceInv s) :
    balanceInv (updateTxn s tid aid amount date ttype payee category notes
      project taid).2 := by
  cases hfind : s.txns.find? (fun t => t.id = tid) with
  | none =>
    have hres : updateTxn s tid aid amount date ttype payee category notes
        project taid = (false, s) := by
      simp only [updateTxn, hfind]
    rw [hres]
    exact h
  | some cur =>
    simp only [updateTxn, hfind]
    generalize (if ttype = "transfer" ∧ truthyId taid = true then
        if cur.amount < 0 then
          (-(abs amount),
            some ((Option.map Account.name
              (getAccountById s (taid.getD 0))).getD "Transfer"))
        else
          (abs amount,
            some ((Option.map Account.name (getAccountById s aid)).getD
              "Transfer"))
      else
        (if ttype = "expense" then -(abs amount) else abs amount, payee)) = q
    obtain ⟨newA, newP⟩ := q
    dsimp only
    exact balanceInv_update_aux s tid aid cur newA newP date ttype category
      notes project hfind hnd h

lemma balanceInv_deleteTxn (s : LedgerState) (tid : Nat)
    (hnd : (s.txns.map Txn.id).Nodup) (h : balanceInv s) :
    balanceInv (deleteTxn s tid).2 := by
  cases hfind : s.txns.find? (fun t => t.id = tid) with
  | none =>
    have hres : deleteTxn s tid = (false, s) := by
      simp only [deleteTxn, hfind]
    rw [hres]
    exact h
  | some row =>
    have hres : (deleteTxn s tid).2 =
        updateBalance { s with txns := s.txns.filter (fun t => ¬ t.id = tid) }
          row.accountId (-row.amount) := by
      simp only [deleteTxn, hfind]
    rw [hres]
    refine balanceInv_delta s _
      (fun i => if row.accountId = i then -row.amount else 0) ?_ ?_ h
    · show s.accounts.map _ = s.accounts.map _
      refine List.map_congr_left ?_
      intro a _
      dsimp only
      by_cases hid : a.id = row.accountId
      · rw [if_pos hid, if_pos hid.symm]
      · rw [if_neg hid, if_neg (fun hc => hid hc.symm), add_zero]
    · intro i
      show txnSum (s.txns.filter _) i = _
      rw [txnSum_filter_out s.txns tid row hfind hnd i]
      by_cases hri : row.accountId = i <;>
        simp only [if_pos, if_neg, hri, if_true, if_false] <;> ring

lemma idsOk_createTxn (s : LedgerState) (aid : Nat) (amount : Int)
    (date : PDate) (ttype : String) (payee category notes project : Option String)
    (rid : Option Nat) (h : idsOk s) :
    idsOk (createTxn s aid amount date ttype payee category notes project
      rid).2 := by
  obtain ⟨hbound, hnd⟩ := h
  constructor
  · intro t ht
    show t.id < s.nextTxnId + 1
    rcases List.mem_append.mp ht with hold | hnew
    · exact Nat.lt_trans (hbound t hold) (Nat.lt_succ_self _)
    · rw [List.mem_singleton.mp hnew]
      exact Nat.lt_succ_self _
  · show ((s.txns ++ [_]).map Txn.id).Nodup
    rw [List.map_append]
    refine List.Nodup.append hnd (List.nodup_singleton _) ?_
    intro x hx hx1
    have hxlt : x < s.nextTxnId := by
      obtain ⟨t, ht, rfl⟩ := List.mem_map.mp hx
      exact hbound t ht
    have hxe : x = s.nextTxnId := by simpa using hx1
    omega

lemma idsOk_createTransfer (s : LedgerState) (fromId toId : Nat)
    (amount : Int) (date : PDate) (payee category notes project : Option String)
    (rid : Option Nat) (h : idsOk s) :
    idsOk (createTransfer s fromId toId amount date payee category notes
      project rid) := by
  obtain ⟨hbound, hnd⟩ := h
  constructor
  · intro t ht
    show t.id < s.nextTxnId + 2
    rcases List.mem_append.mp ht with hold | hnew
    · have := hbound t hold
      omega
    · rcases List.mem_cons.mp hnew with h1 | h2
      · rw [h1]
        show s.nextTxnId < s.nextTxnId + 2
        omega
      · rw [List.mem_singleton.mp h2]
        show s.nextTxnId + 1 < s.nextTxnId + 2
        omega
  · show ((s.txns ++ [_, _]).map Txn.id).Nodup
    rw [List.map_append]
    refine List.Nodup.append hnd ?_ ?_
    · show (List.map Txn.id [_, _]).Nodup
      simp
    · intro x hx hx2
      have hxlt : x < s.nextTxnId := by
        obtain ⟨t, ht, rfl⟩ := List.mem_map.mp hx
        exact hbound t ht
      have : x = s.nextTxnId ∨ x = s.nextTxnId + 1 := by simpa using hx2
      omega

lemma idsOk_updateTxn (s : LedgerState) (tid aid : Nat) (amount : Int)
    (date : PDate) (ttype : String) (payee category notes project : Option String)
    (taid : Option Nat) (h : idsOk s) :
    idsOk (updateTxn s tid aid amount date ttype payee category notes project
      taid).2 := by
  cases hfind : s.txns.find? (fun t => t.id = tid) with
  | none =>
    have hres : updateTxn s tid aid amount date ttype payee category notes
        project taid = (false, s) := by
      simp only [updateTxn, hfind]
    rw [hres]
    exact h
  | some cur =>
    obtain ⟨hbound, hnd⟩ := h
    simp only [updateTxn, hfind]
    generalize (if ttype = "transfer" ∧ truthyId taid = true then
        if cur.amount < 0 then
          (-(abs amount),
            some ((Option.map Account.name
              (getAccountById s (taid.getD 0))).getD "Transfer"))
        else
          (abs amount,
            some ((Option.map Account.name (getAccountById s aid)).getD
              "Transfer"))
      else
        (if ttype = "expense" then -(abs amount) else abs amount, payee)) = q
    obtain ⟨newA, newP⟩ := q
    dsimp only
    have hids : (s.txns.map (fun t =>
        if t.id = tid then
          (⟨t.id, aid, newA, date, ttype, newP, category, notes, project,
            t.recurringId⟩ : Txn)
        else t)).map Txn.id = s.txns.map Txn.id := by
      rw [List.map_map]
      refine List.map_congr_left ?_
      intro t _
      by_cases hh : t.id = tid
      · rw [Function.comp_apply, if_pos hh]
      · rw [Function.comp_apply, if_neg hh]
    by_cases hacc : cur.accountId = aid
    · rw [if_pos hacc]
      constructor
      · intro t ht
        show t.id < s.nextTxnId
        obtain ⟨t0, ht0, rfl⟩ := List.mem_map.mp ht
        by_cases hh : t0.id = tid
        · rw [if_pos hh]
          exact hbound t0 ht0
        · rw [if_neg hh]
          exact hbound t0 ht0
      · show ((s.txns.map _).map Txn.id).Nodup
        rw [hids]
        exact hnd
    · rw [if_neg hacc]
      constructor
      · intro t ht
        show t.id < s.nextTxnId
        obtain ⟨t0, ht0, rfl⟩ := List.mem_map.mp ht
        by_cases hh : t0.id = tid
        · rw [if_pos hh]
          exact hbound t0 ht0
        · rw [if_neg hh]
          exact hbound t0 ht0
      · show ((s.txns.map _).map Txn.id).Nodup
        rw [hids]
        exact hnd

lemma idsOk_deleteTxn (s : LedgerState) (tid : Nat) (h : idsOk s) :
    idsOk (deleteTxn s tid).2 := by
  cases hfind : s.txns.find? (fun t => t.id = tid) with
  | none =>
    have hres : deleteTxn s tid = (false, s) := by
      simp only [deleteTxn, hfind]
    rw [hres]
    exact h
  | some row =>
    obtain ⟨hbound, hnd⟩ := h
    have hres : (deleteTxn s tid).2 =
        updateBalance { s with txns := s.txns.filter (fun t => ¬ t.id = tid) }
          row.accountId (-row.amount) := by
      simp only [deleteTxn, hfind]
    rw [hres]
    constructor
    · intro t ht
      exact hbound t (List.mem_of_mem_filter ht)
    · show ((s.txns.filter _).map Txn.id).Nodup
      exact hnd.sublist (List.Sublist.map Txn.id (List.filter_sublist _))

lemma ledgerWF_applyOp (s : LedgerState) (op : LedgerOp) (h : ledgerWF s) :
    ledgerWF (applyOp s op) := by
  obtain ⟨hids, hbal⟩ := h
  cases op with
  | create aid amount date ttype payee category notes project rid =>
    exact ⟨idsOk_createTxn s aid amount date ttype payee category notes
      project rid hids,
      balanceInv_createTxn s aid amount date ttype payee category notes
        project rid hbal⟩
  | transfer fromId toId amount date payee category notes project rid =>
    exact ⟨idsOk_createTransfer s fromId toId amount date payee category notes
      project rid hids,
      balanceInv_createTransfer s fromId toId amount date payee category notes
        project rid hbal⟩
  | update tid aid amount date ttype payee category notes project taid =>
    exact ⟨idsOk_updateTxn s tid aid amount date ttype payee category notes
      project taid hids,
      balanceInv_updateTxn s tid aid amount date ttype payee category notes
        project taid hids.2 hbal⟩
  | delete tid =>
    exact ⟨idsOk_deleteTxn s tid hids, balanceInv_deleteTxn s tid hids.2 hbal⟩

lemma ledgerWF_applyOps (s : LedgerState) (ops : List LedgerOp)
    (h : ledgerWF s) : ledgerWF (applyOps s ops) := by
  induction ops generalizing s with
  | nil => exact h
  | cons op ops ih => exact ih (applyOp s op) (ledgerWF_applyOp s op h)

/-- Claim C1: starting from any well-formed ledger state in which every
account's balance equals the sum of its transaction amounts, after any
sequence of ledger operations (create, create_transfer, update, delete) every
account's stored balance still equals the sum of the amounts of the
transaction rows currently referencing it. -/
theorem c1_balance_invariant (s : LedgerState) (ops : List LedgerOp)
    (h : ledgerWF s) : balanceInv (applyOps s ops) :=
  (ledgerWF_applyOps s ops h).2

/-- Witness for C1: a concrete run of all four operation kinds. -/
theorem c1_balance_invariant_witness :
    ledgerWF sampleLedger ∧
    balanceInv (applyOps sampleLedger
      [.create 1 100 sampleDate "income" none none none none none,
       .transfer 1 2 30 sampleDate none none none none none,
       .update 1 1 40 sampleDate "expense" none none none none none,
       .delete 2]) :=
  ⟨by decide,
   c1_balance_invariant sampleLedger
     [.create 1 100 sampleDate "income" none none none none none,
      .transfer 1 2 30 sampleDate none none none none none,
      .update 1 1 40 sampleDate "expense" none none none none none,
      .delete 2] (by decide)⟩

lemma dateLT_trans {a b c : PDate} (h1 : dateLT a b) (h2 : dateLT b c) :
    dateLT a c := by
  unfold dateLT at h1 h2 ⊢
  omega

lemma pdate_ext_iff (a b : PDate) :
    a = b ↔ a.year = b.year ∧ a.month = b.month ∧ a.day = b.day := by
  cases a
  cases b
  simp [PDate.mk.injEq]

lemma dateLE_trans {a b c : PDate} (h1 : dateLE a b) (h2 : dateLE b c) :
    dateLE a c := by
  unfold dateLE at h1 h2 ⊢
  rw [pdate_ext_iff] at h1 h2 ⊢
  unfold dateLT at h1 h2 ⊢
  omega

lemma daysInMonth_le (y m : Nat) : daysInMonth y m ≤ 31 := by
  unfold daysInMonth
  split_ifs <;> omega

lemma daysInMonth_pos (y m : Nat) : 1 ≤ daysInMonth y m := by
  unfold daysInMonth
  split_ifs <;> omega

lemma dateRank_lt (a b : PDate) (ha : validDate a) (hb : validDate b)
    (h : dateLT a b) : dateRank a < dateRank b := by
  obtain ⟨ha1, ha2, ha3, ha4⟩ := ha
  obtain ⟨hb1, hb2, hb3, hb4⟩ := hb
  have ha5 : a.day ≤ 31 := le_trans ha4 (daysInMonth_le _ _)
  have hb5 : b.day ≤ 31 := le_trans hb4 (daysInMonth_le _ _)
  unfold dateLT at h
  unfold dateRank
  omega

lemma dateRank_le (a b : PDate) (ha : validDate a) (hb : validDate b)
    (h : dateLE a b) : dateRank a ≤ dateRank b := by
  rcases h with h | rfl
  · exact le_of_lt (dateRank_lt a b ha hb h)
  · exact le_refl _

lemma succDay_lt (d : PDate) : dateLT d (succDay d) := by
  unfold succDay dateLT
  split_ifs with h1 h2 <;> dsimp only <;> omega

lemma addDays_lt (d : PDate) (n : Nat) (h : 0 < n) :
    dateLT d (addDays d n) := by
  induction n with
  | zero => omega
  | succ n ih =>
    rcases Nat.eq_zero_or_pos n with h0 | hp
    · subst h0
      exact succDay_lt d
    · exact dateLT_trans (ih hp) (succDay_lt _)

lemma succDay_valid (d : PDate) (h : validDate d) : validDate (succDay d) := by
  obtain ⟨h1, h2, h3, h4⟩ := h
  have hp1 : 1 ≤ daysInMonth (d.year + 1) 1 := daysInMonth_pos _ _
  have hp2 : 1 ≤ daysInMonth d.year (d.month + 1) := daysInMonth_pos _ _
  unfold succDay
  split_ifs with hd hm
  · show 1 ≤ d.month ∧ d.month ≤ 12 ∧ 1 ≤ d.day + 1 ∧
      d.day + 1 ≤ daysInMonth d.year d.month
    omega
  · show 1 ≤ 1 ∧ 1 ≤ 12 ∧ 1 ≤ 1 ∧ 1 ≤ daysInMonth (d.year + 1) 1
    omega
  · show 1 ≤ d.month + 1 ∧ d.month + 1 ≤ 12 ∧ 1 ≤ 1 ∧
      1 ≤ daysInMonth d.year (d.month + 1)
    omega

lemma addDays_valid (d : PDate) (n : Nat) (h : validDate d) :
    validDate (addDays d n) := by
  induction n with
  | zero => exact h
  | succ n ih => exact succDay_valid _ ih

lemma dreplace_some (d : PDate) (y m : Nat) (d' : PDate)
    (h : dreplace d y m = some d') : d' = ⟨y, m, d.day⟩ ∧ validDate d' := by
  unfold dreplace at h
  split_ifs at h with hc
  · injection h with h
    subst h
    exact ⟨rfl, hc.1, hc.2.1, hc.2.2.1, hc.2.2.2⟩

lemma calcNext_daily (d : PDate) :
    calculateNextDate d "daily" = some (addDays d 1) := rfl

lemma calcNext_weekly (d : PDate) :
    calculateNextDate d "weekly" = some (addDays d 7) := rfl

lemma calcNext_biweekly (d : PDate) :
    calculateNextDate d "biweekly" = some (addDays d 14) := rfl

lemma calcNext_monthly (d : PDate) :
    calculateNextDate d "monthly" =
      if d.month = 12 then dreplace d (d.year + 1) 1
      else dreplace d d.year (d.month + 1) := rfl

lemma calcNext_quarterly (d : PDate) :
    calculateNextDate d "quarterly" =
      if d.month + 3 > 12 then dreplace d (d.year + 1) (d.month + 3 - 12)
      else dreplace d d.year (d.month + 3) := rfl

lemma calcNext_yearly (d : PDate) :
    calculateNextDate d "yearly" = dreplace d (d.year + 1) d.month := rfl

lemma calcNext_lt (d d' : PDate) (freq : String) (hf : freq ∈ knownFreqs)
    (h : calculateNextDate d freq = some d') : dateLT d d' := by
  unfold knownFreqs at hf
  simp only [List.mem_cons, List.not_mem_nil, or_false] at hf
  rcases hf with rfl | rfl | rfl | rfl | rfl | rfl
  · rw [calcNext_daily] at h
    injection h with h
    subst h
    exact addDays_lt d 1 (by omega)
  · rw [calcNext_weekly] at h
    injection h with h
    subst h
    exact addDays_lt d 7 (by omega)
  · rw [calcNext_biweekly] at h
    injection h with h
    subst h
    exact addDays_lt d 14 (by omega)
  · rw [calcNext_monthly] at h
    split_ifs at h with hm
    · obtain ⟨hd, -⟩ := dreplace_some _ _ _ _ h
      subst hd
      unfold dateLT
      dsimp only
      omega
    · obtain ⟨hd, -⟩ := dreplace_some _ _ _ _ h
      subst hd
      unfold dateLT
      dsimp only
      omega
  · rw [calcNext_quarterly] at h
    split_ifs at h with hm
    · obtain ⟨hd, -⟩ := dreplace_some _ _ _ _ h
      subst hd
      unfold dateLT
      dsimp only
      omega
    · obtain ⟨hd, -⟩ := dreplace_some _ _ _ _ h
      subst hd
      unfold dateLT
      dsimp only
      omega
  · rw [calcNext_yearly] at h
    obtain ⟨hd, -⟩ := dreplace_some _ _ _ _ h
    subst hd
    unfold dateLT
    dsimp only
    omega

lemma calcNext_valid (d d' : PDate) (freq : String) (hf : freq ∈ knownFreqs)
    (h : calculateNextDate d freq = some d') (hd : validDate d) :
    validDate d' := by
  unfold knownFreqs at hf
  simp only [List.mem_cons, List.not_mem_nil, or_false] at hf
  rcases hf with rfl | rfl | rfl | rfl | rfl | rfl
  · rw [calcNext_daily] at h
    injection h with h
    subst h
    exact addDays_valid d 1 hd
  · rw [calcNext_weekly] at h
    injection h with h
    subst h
    exact addDays_valid d 7 hd
  · rw [calcNext_biweekly] at h
    injection h with h
    subst h
    exact addDays_valid d 14 hd
  · rw [calcNext_monthly] at h
    split_ifs at h with hm
    · exact (dreplace_some _ _ _ _ h).2
    · exact (dreplace_some _ _ _ _ h).2
  · rw [calcNext_quarterly] at h
    split_ifs at h with hm
    · exact (dreplace_some _ _ _ _ h).2
    · exact (dreplace_some _ _ _ _ h).2
  · rw [calcNext_yearly] at h
    exact (dreplace_some _ _ _ _ h).2

lemma calcNext_unknown (d : PDate) (freq : String) (hf : freq ∉ knownFreqs) :
    calculateNextDate d freq = some d := by
  have h1 : ¬ freq = "daily" := fun h => hf (by simp [knownFreqs, h])
  have h2 : ¬ freq = "weekly" := fun h => hf (by simp [knownFreqs, h])
  have h3 : ¬ freq = "biweekly" := fun h => hf (by simp [knownFreqs, h])
  have h4 : ¬ freq = "monthly" := fun h => hf (by simp [knownFreqs, h])
  have h5 : ¬ freq = "quarterly" := fun h => hf (by simp [knownFreqs, h])
  have h6 : ¬ freq = "yearly" := fun h => hf (by simp [knownFreqs, h])
  unfold calculateNextDate
  rw [if_neg h1, if_neg h2, if_neg h3, if_neg h4, if_neg h5, if_neg h6]

lemma processLoop_zero (r : RecurringDef) (inc : Int) (today : PDate)
    (s : LedgerState) (ca : Int) (lp nd : PDate) (cnt : Nat) :
    processLoop r inc today 0 s ca lp nd cnt =
      if dateLE nd today then .spin (s, ca, lp, cnt)
      else .ok (s, ca, lp, cnt) := rfl

lemma processLoop_succ (r : RecurringDef) (inc : Int) (today : PDate)
    (fuel : Nat) (s : LedgerState) (ca : Int) (lp nd : PDate) (cnt : Nat) :
    processLoop r inc today (fuel + 1) s ca lp nd cnt =
      if dateLE nd today then
        match calculateNextDate nd r.frequency with
        | none =>
          .exn (materializeOccurrence r s (ca + inc) nd, ca + inc, nd, cnt + 1)
        | some nd1 =>
          processLoop r inc today fuel (materializeOccurrence r s (ca + inc) nd)
            (ca + inc) nd nd1 (cnt + 1)
      else .ok (s, ca, lp, cnt) := rfl

lemma processLoop_no_spin (r : RecurringDef) (inc : Int) (today : PDate)
    (hfreq : r.frequency ∈ knownFreqs) (htoday : validDate today) :
    ∀ (fuel : Nat) (s : LedgerState) (ca : Int) (lp nd : PDate) (cnt : Nat),
      validDate nd → dateRank today < fuel + dateRank nd →
      (processLoop r inc today fuel s ca lp nd cnt).isSpin = false := by
  intro fuel
  induction fuel with
  | zero =>
    intro s ca lp nd cnt hnd hrank
    rw [processLoop_zero]
    split_ifs with hle
    · exfalso
      have := dateRank_le nd today hnd htoday hle
      omega
    · rfl
  | succ f ih =>
    intro s ca lp nd cnt hnd hrank
    rw [processLoop_succ]
    split_ifs with hle
    · cases hcalc : calculateNextDate nd r.frequency with
      | none => rfl
      | some nd1 =>
        have hv := calcNext_valid nd nd1 r.frequency hfreq hcalc hnd
        have hlt := calcNext_lt nd nd1 r.frequency hfreq hcalc
        have hr := dateRank_lt nd nd1 hnd hv hlt
        exact ih (materializeOccurrence r s (ca + inc) nd) (ca + inc) nd nd1
          (cnt + 1) hv (by omega)
    · rfl

lemma processLoop_spin_unknown (r : RecurringDef) (inc : Int) (today : PDate)
    (hf : r.frequency ∉ knownFreqs) :
    ∀ (fuel : Nat) (s : LedgerState) (ca : Int) (lp nd : PDate) (cnt : Nat),
      dateLE nd today →
      (processLoop r inc today fuel s ca lp nd cnt).isSpin = true := by
  intro fuel
  induction fuel with
  | zero =>
    intro s ca lp nd cnt hle
    rw [processLoop_zero, if_pos hle]
    rfl
  | succ f ih =>
    intro s ca lp nd cnt hle
    rw [processLoop_succ, if_pos hle, calcNext_unknown nd r.frequency hf]
    exact ih (materializeOccurrence r s (ca + inc) nd) (ca + inc) nd nd
      (cnt + 1) hle

lemma processOne_no_spin (fuel : Nat) (today : PDate) (s : LedgerState)
    (r : RecurringDef) (hf : r.frequency ∈ knownFreqs) (ht : validDate today)
    (hlp : validDate r.lastProcessed)
    (hfuel : dateRank today < fuel + dateRank r.lastProcessed) :
    (processOne fuel today s r).isSpin = false := by
  unfold processOne
  dsimp only
  cases hcalc : calculateNextDate r.lastProcessed r.frequency with
  | none => rfl
  | some nd =>
    have hv := calcNext_valid _ nd r.frequency hf hcalc hlp
    have hlt := calcNext_lt _ nd r.frequency hf hcalc
    have hr := dateRank_lt _ nd hlp hv hlt
    have hns := processLoop_no_spin r (r.incrementAmount.getD 0) today hf ht
      fuel s r.amount r.lastProcessed nd 0 hv (by omega)
    cases hloop : processLoop r (r.incrementAmount.getD 0) today fuel s
        r.amount r.lastProcessed nd 0 with
    | ok a =>
      obtain ⟨s1, ca1, lp1, cnt⟩ := a
      dsimp only
      rw [hloop]
      dsimp only
      split_ifs <;> rfl
    | exn a =>
      obtain ⟨s1, ca1, lp1, cnt⟩ := a
      dsimp only
      rw [hloop]
      rfl
    | spin a =>
      rw [hloop] at hns
      exact absurd hns (by simp [RunOut.isSpin])

lemma processOne_spin_unknown (fuel : Nat) (today : PDate) (s : LedgerState)
    (r : RecurringDef) (hf : r.frequency ∉ knownFreqs)
    (hle : dateLE r.lastProcessed today) :
    (processOne fuel today s r).isSpin = true := by
  unfold processOne
  dsimp only
  rw [calcNext_unknown _ _ hf]
  have hspin := processLoop_spin_unknown r (r.incrementAmount.getD 0) today hf
    fuel s r.amount r.lastProcessed r.lastProcessed 0 hle
  cases hloop : processLoop r (r.incrementAmount.getD 0) today fuel s r.amount
      r.lastProcessed r.lastProcessed 0 with
  | ok a =>
    rw [hloop] at hspin
    exact absurd hspin (by simp [RunOut.isSpin])
  | exn a =>
    rw [hloop] at hspin
    exact absurd hspin (by simp [RunOut.isSpin])
  | spin a =>
    obtain ⟨s1, ca1, lp1, cnt⟩ := a
    dsimp only
    rw [hloop]
    rfl

/-- Claim C10: for the six known frequencies `_calculate_next_date` returns a
strictly later date whenever it returns, and (on valid dates, with enough
fuel) the catch-up loop of `process_due` cannot still be running: it ends in
a normal exit or a propagating exception.  For any other frequency string the
function returns its input unchanged, and the loop of an active definition
whose watermark is not after today never finishes, whatever the fuel. -/
theorem c10_advance_progress_termination :
    (∀ (d d' : PDate) (freq : String), freq ∈ knownFreqs →
       calculateNextDate d freq = some d' → dateLT d d') ∧
    (∀ (fuel : Nat) (today : PDate) (s : LedgerState) (r : RecurringDef),
       r.frequency ∈ knownFreqs → validDate today →
       validDate r.lastProcessed →
       dateRank today < fuel + dateRank r.lastProcessed →
       (processOne fuel today s r).isSpin = false) ∧
    (∀ (d : PDate) (freq : String), freq ∉ knownFreqs →
       calculateNextDate d freq = some d) ∧
    (∀ (fuel : Nat) (today : PDate) (s : LedgerState) (r : RecurringDef),
       r.frequency ∉ knownFreqs → dateLE r.lastProcessed today →
       (processOne fuel today s r).isSpin = true) :=
  ⟨fun d d' freq hf h => calcNext_lt d d' freq hf h,
   fun fuel today s r hf ht hlp hfuel =>
     processOne_no_spin fuel today s r hf ht hlp hfuel,
   fun d freq hf => calcNext_unknown d freq hf,
   fun fuel today s r hf hle => processOne_spin_unknown fuel today s r hf hle⟩

/-- Witness for C10 at concrete dates, fuel and definitions. -/
theorem c10_advance_progress_termination_witness :
    (("monthly" ∈ knownFreqs ∧
        calculateNextDate ⟨2024, 1, 15⟩ "monthly" = some ⟨2024, 2, 15⟩) ∧
      dateLT ⟨2024, 1, 15⟩ ⟨2024, 2, 15⟩) ∧
    (("monthly" ∈ knownFreqs ∧ validDate ⟨2024, 4, 20⟩ ∧
        validDate monthlyDef.lastProcessed ∧
        dateRank ⟨2024, 4, 20⟩ < 200 + dateRank monthlyDef.lastProcessed) ∧
      (processOne 200 ⟨2024, 4, 20⟩ sampleLedger monthlyDef).isSpin = false) ∧
    (("fortnightly" ∉ knownFreqs) ∧
      calculateNextDate sampleDate "fortnightly" = some sampleDate) ∧
    ((("fortnightly" ∉ knownFreqs) ∧
        dateLE ({ monthlyDef with frequency := "fortnightly" } :
          RecurringDef).lastProcessed ⟨2024, 4, 20⟩) ∧
      (processOne 3 ⟨2024, 4, 20⟩ sampleLedger
        { monthlyDef with frequency := "fortnightly" }).isSpin = true) :=
  ⟨⟨⟨by decide, by decide⟩,
    c10_advance_progress_termination.1 ⟨2024, 1, 15⟩ ⟨2024, 2, 15⟩ "monthly"
      (by decide) (by decide)⟩,
   ⟨⟨by decide, by decide, by decide, by decide⟩,
    c10_advance_progress_termination.2.1 200 ⟨2024, 4, 20⟩ sampleLedger
      monthlyDef (by decide) (by decide) (by decide) (by decide)⟩,
   ⟨by decide,
    c10_advance_progress_termination.2.2.1 sampleDate "fortnightly"
      (by decide)⟩,
   ⟨⟨by decide, by decide⟩,
    c10_advance_progress_termination.2.2.2 3 ⟨2024, 4, 20⟩ sampleLedger
      { monthlyDef with frequency := "fortnightly" } (by decide) (by decide)⟩⟩

lemma processDefs_cons (fuel : Nat) (today : PDate) (s : LedgerState)
    (r : RecurringDef) (rest : List RecurringDef) :
    processDefs fuel today s (r :: rest) =
      match processOne fuel today s r with
      | .ok (s1, r1, c1) =>
        match processDefs fuel today s1 rest with
        | .ok (s2, rest2, c2) => .ok (s2, r1 :: rest2, c1 + c2)
        | .exn (s2, rest2, c2) => .exn (s2, r1 :: rest2, c1 + c2)
        | .spin (s2, rest2, c2) => .spin (s2, r1 :: rest2, c1 + c2)
      | .exn (s1, r1, c1) => .exn (s1, r1 :: rest, c1)
      | .spin (s1, r1, c1) => .spin (s1, r1 :: rest, c1) := rfl

/-- Claim C9: `_calculate_next_date` raises `ValueError` (modelled as `none`)
whenever `date.replace` targets a month lacking the day — monthly and
quarterly from Jan 31, yearly from Feb 29 — and when the very first advance of
a definition raises, `process_due`'s body turns into a propagating exception
with no occurrence created; concretely, a monthly definition with watermark
2023-12-31 commits its 2024-01-31 occurrence and then aborts the whole pass,
leaving its own watermark and every following definition untouched and
returning no count. -/
theorem c9_value_error_aborts_pass :
    (calculateNextDate ⟨2024, 1, 31⟩ "monthly" = none ∧
     calculateNextDate ⟨2024, 1, 31⟩ "quarterly" = none ∧
     calculateNextDate ⟨2024, 2, 29⟩ "yearly" = none) ∧
    (∀ (fuel : Nat) (today : PDate) (s : LedgerState) (r : RecurringDef),
       calculateNextDate r.lastProcessed r.frequency = none →
       processOne fuel today s r = .exn (s, r, 0)) ∧
    processDue 10 ⟨2024, 4, 20⟩ sampleLedger [dec31Def, monthlyDef] =
      .exn
        (⟨[⟨1, "Checking", "checking", 100⟩, ⟨2, "Savings", "savings", 0⟩],
          [⟨1, 1, 100, ⟨2024, 1, 31⟩, "income", none, none, none, none,
            some 3⟩], 2⟩,
         [dec31Def, monthlyDef], 1) := by
  refine ⟨by decide, ?_, by decide⟩
  intro fuel today s r h
  unfold processOne
  dsimp only
  rw [h]

/-- Witness for C9's general clause at the Jan-31 monthly definition. -/
theorem c9_value_error_aborts_pass_witness :
    calculateNextDate jan31Def.lastProcessed jan31Def.frequency = none ∧
    processOne 5 ⟨2024, 4, 20⟩ sampleLedger jan31Def =
      .exn (sampleLedger, jan31Def, 0) :=
  ⟨by decide,
   c9_value_error_aborts_pass.2.1 5 ⟨2024, 4, 20⟩ sampleLedger jan31Def
     (by decide)⟩

/-- Counterexample to C6: with the failing Jan-31 definition first,
`process_due` raises (returns no count) and the sibling monthly definition —
which alone would have materialized 3 occurrences — is left completely
unprocessed. -/
theorem c6_counterexample :
    processDue 10 ⟨2024, 4, 20⟩ sampleLedger [jan31Def, monthlyDef] =
      .exn (sampleLedger, [jan31Def, monthlyDef], 0) ∧
    (processDue 10 ⟨2024, 4, 20⟩ sampleLedger [monthlyDef]).isOk = true ∧
    (processDue 10 ⟨2024, 4, 20⟩ sampleLedger [monthlyDef]).val.2.2 = 3 := by
  decide

/-- Claim C6 (amended): `process_due` has no per-definition failure boundary
(the only `try/except` covers the `increment_amount` column read): an
exception raised while processing one definition propagates immediately, the
definitions after it are returned untouched and no aggregate count is
returned; only when a definition processes normally does the pass continue,
summing the counts. -/
theorem c6_no_failure_boundary :
    (∀ (fuel : Nat) (today : PDate) (s : LedgerState) (r : RecurringDef)
       (rest : List RecurringDef) (s1 : LedgerState) (r1 : RecurringDef)
       (c1 : Nat),
       processOne fuel today s r = .exn (s1, r1, c1) →
       processDefs fuel today s (r :: rest) = .exn (s1, r1 :: rest, c1)) ∧
    (∀ (fuel : Nat) (today : PDate) (s : LedgerState) (r : RecurringDef)
       (rest : List RecurringDef) (s1 : LedgerState) (r1 : RecurringDef)
       (c1 : Nat) (s2 : LedgerState) (rest2 : List RecurringDef) (c2 : Nat),
       processOne fuel today s r = .ok (s1, r1, c1) →
       processDefs fuel today s1 rest = .ok (s2, rest2, c2) →
       processDefs fuel today s (r :: rest) = .ok (s2, r1 :: rest2, c1 + c2)) := by
  constructor
  · intro fuel today s r rest s1 r1 c1 h
    rw [processDefs_cons, h]
  · intro fuel today s r rest s1 r1 c1 s2 rest2 c2 h1 h2
    rw [processDefs_cons, h1]
    dsimp only
    rw [h2]

/-- Witness for C6 (amended): the exception clause at the Jan-31 definition
and the success clause at the plain monthly definition. -/
theorem c6_no_failure_boundary_witness :
    (processOne 10 ⟨2024, 4, 20⟩ sampleLedger jan31Def =
        .exn (sampleLedger, jan31Def, 0) ∧
      processDefs 10 ⟨2024, 4, 20⟩ sampleLedger [jan31Def, monthlyDef] =
        .exn (sampleLedger, jan31Def :: [monthlyDef], 0)) ∧
    (processDefs 10 ⟨2024, 4, 20⟩ sampleLedger [] = .ok (sampleLedger, [], 0)) :=
  ⟨⟨by decide,
    c6_no_failure_boundary.1 10 ⟨2024, 4, 20⟩ sampleLedger jan31Def
      [monthlyDef] sampleLedger jan31Def 0 (by decide)⟩,
   by decide⟩

lemma createTxn_txns (s : LedgerState) (aid : Nat) (amount : Int)
    (date : PDate) (ttype : String) (payee category notes project : Option String)
    (rid : Option Nat) :
    ((createTxn s aid amount date ttype payee category notes project
        rid).2).txns =
      s.txns ++ [⟨s.nextTxnId, aid, amount, date, ttype, payee, category,
        notes, project, rid⟩] := rfl

lemma createTransfer_txns (s : LedgerState) (fromId toId : Nat) (amount : Int)
    (date : PDate) (payee category notes project : Option String)
    (rid : Option Nat) :
    (createTransfer s fromId toId amount date payee category notes project
        rid).txns =
      s.txns ++
        [⟨s.nextTxnId, fromId, -(abs amount), date, "transfer",
           some (((getAccountById s toId).map Account.name).getD "Transfer"),
           category, notes, project, rid⟩,
         ⟨s.nextTxnId + 1, toId, abs amount, date, "transfer",
           some (((getAccountById s fromId).map Account.name).getD "Transfer"),
           category, notes, project, rid⟩] := rfl

lemma materializeOccurrence_txns (r : RecurringDef) (s : LedgerState)
    (a1 : Int) (nd : PDate) :
    ∀ t ∈ (materializeOccurrence r s a1 nd).txns,
      t ∈ s.txns ∨ (t.date = nd ∧ t.recurringId = some r.id) := by
  intro t ht
  unfold materializeOccurrence at ht
  split_ifs at ht with hc
  · cases hfind : s.accounts.find? (fun a => a.name = r.payee.getD "") with
    | some dest =>
      rw [hfind, createTransfer_txns] at ht
      simp only [List.mem_append, List.mem_cons, List.not_mem_nil,
        or_false] at ht
      rcases ht with h | rfl | rfl
      · exact Or.inl h
      · exact Or.inr ⟨rfl, rfl⟩
      · exact Or.inr ⟨rfl, rfl⟩
    | none =>
      rw [hfind, createTxn_txns] at ht
      simp only [List.mem_append, List.mem_cons, List.not_mem_nil,
        or_false] at ht
      rcases ht with h | rfl
      · exact Or.inl h
      · exact Or.inr ⟨rfl, rfl⟩
  · dsimp only at ht
    rw [createTxn_txns] at ht
    simp only [List.mem_append, List.mem_cons, List.not_mem_nil,
      or_false] at ht
    rcases ht with h | rfl
    · exact Or.inl h
    · exact Or.inr ⟨rfl, rfl⟩
  · dsimp only at ht
    rw [createTxn_txns] at ht
    simp only [List.mem_append, List.mem_cons, List.not_mem_nil,
      or_false] at ht
    rcases ht with h | rfl
    · exact Or.inl h
    · exact Or.inr ⟨rfl, rfl⟩

lemma processLoop_txns_sub (r : RecurringDef) (inc : Int) (today : PDate) :
    ∀ (fuel : Nat) (s : LedgerState) (ca : Int) (lp nd : PDate) (cnt : Nat)
      (out : RunOut (LedgerState × Int × PDate × Nat)),
      processLoop r inc today fuel s ca lp nd cnt = out →
      ∀ t ∈ (out.val.1).txns,
        t ∈ s.txns ∨ (dateLE t.date today ∧ t.recurringId = some r.id) := by
  intro fuel
  induction fuel with
  | zero =>
    intro s ca lp nd cnt out hout t ht
    rw [processLoop_zero] at hout
    split_ifs at hout
    · subst hout
      exact Or.inl ht
    · subst hout
      exact Or.inl ht
  | succ f ih =>
    intro s ca lp nd cnt out hout t ht
    rw [processLoop_succ] at hout
    split_ifs at hout with hle
    · cases hcalc : calculateNextDate nd r.frequency with
      | none =>
        rw [hcalc] at hout
        subst hout
        rcases materializeOccurrence_txns r s (ca + inc) nd t ht with h | ⟨hd, hr⟩
        · exact Or.inl h
        · exact Or.inr ⟨hd ▸ hle, hr⟩
      | some nd1 =>
        rw [hcalc] at hout
        rcases ih (materializeOccurrence r s (ca + inc) nd) (ca + inc) nd nd1
            (cnt + 1) out hout t ht with h | h
        · rcases materializeOccurrence_txns r s (ca + inc) nd t h with h2 | ⟨hd, hr⟩
          · exact Or.inl h2
          · exact Or.inr ⟨hd ▸ hle, hr⟩
        · exact Or.inr h
    · subst hout
      exact Or.inl ht

lemma processOne_txns_sub (fuel : Nat) (today : PDate) (s : LedgerState)
    (r : RecurringDef) (out : RunOut (LedgerState × RecurringDef × Nat))
    (hout : processOne fuel today s r = out) :
    ∀ t ∈ (out.val.1).txns,
      t ∈ s.txns ∨ (dateLE t.date today ∧ t.recurringId = some r.id) := by
  intro t ht
  unfold processOne at hout
  dsimp only at hout
  cases hcalc : calculateNextDate r.lastProcessed r.frequency with
  | none =>
    rw [hcalc] at hout
    subst hout
    exact Or.inl ht
  | some nd =>
    rw [hcalc] at hout
    dsimp only at hout
    cases hloop : processLoop r (r.incrementAmount.getD 0) today fuel s
        r.amount r.lastProcessed nd 0 with
    | ok a =>
      obtain ⟨s1, ca1, lp1, cnt⟩ := a
      rw [hloop] at hout
      dsimp only at hout
      split_ifs at hout <;> subst hout <;>
        exact processLoop_txns_sub r (r.incrementAmount.getD 0) today fuel s
          r.amount r.lastProcessed nd 0 _ hloop t ht
    | exn a =>
      obtain ⟨s1, ca1, lp1, cnt⟩ := a
      rw [hloop] at hout
      dsimp only at hout
      subst hout
      exact processLoop_txns_sub r (r.incrementAmount.getD 0) today fuel s
        r.amount r.lastProcessed nd 0 _ hloop t ht
    | spin a =>
      obtain ⟨s1, ca1, lp1, cnt⟩ := a
      rw [hloop] at hout
      dsimp only at hout
      subst hout
      exact processLoop_txns_sub r (r.incrementAmount.getD 0) today fuel s
        r.amount r.lastProcessed nd 0 _ hloop t ht

lemma processDefs_txns_sub (fuel : Nat) (today : PDate) :
    ∀ (defs : List RecurringDef) (s : LedgerState)
      (out : RunOut (LedgerState × List RecurringDef × Nat)),
      processDefs fuel today s defs = out →
      ∀ t ∈ (out.val.1).txns, t ∈ s.txns ∨ dateLE t.date today := by
  intro defs
  induction defs with
  | nil =>
    intro s out hout t ht
    subst hout
    exact Or.inl ht
  | cons r rest ih =>
    intro s out hout t ht
    rw [processDefs_cons] at hout
    cases hone : processOne fuel today s r with
    | ok a =>
      obtain ⟨s1, r1, c1⟩ := a
      rw [hone] at hout
      dsimp only at hout
      cases hdefs : processDefs fuel today s1 rest with
      | ok b =>
        obtain ⟨s2, rest2, c2⟩ := b
        rw [hdefs] at hout
        subst hout
        rcases ih s1 _ hdefs t ht with h | h
        · rcases processOne_txns_sub fuel today s r _ hone t h with h2 | ⟨h2, -⟩
          · exact Or.inl h2
          · exact Or.inr h2
        · exact Or.inr h
      | exn b =>
        obtain ⟨s2, rest2, c2⟩ := b
        rw [hdefs] at hout
        subst hout
        rcases ih s1 _ hdefs t ht with h | h
        · rcases processOne_txns_sub fuel today s r _ hone t h with h2 | ⟨h2, -⟩
          · exact Or.inl h2
          · exact Or.inr h2
        · exact Or.inr h
      | spin b =>
        obtain ⟨s2, rest2, c2⟩ := b
        rw [hdefs] at hout
        subst hout
        rcases ih s1 _ hdefs t ht with h | h
        · rcases processOne_txns_sub fuel today s r _ hone t h with h2 | ⟨h2, -⟩
          · exact Or.inl h2
          · exact Or.inr h2
        · exact Or.inr h
    | exn a =>
      obtain ⟨s1, r1, c1⟩ := a
      rw [hone] at hout
      subst hout
      rcases processOne_txns_sub fuel today s r _ hone t ht with h | ⟨h, -⟩
      · exact Or.inl h
      · exact Or.inr h
    | spin a =>
      obtain ⟨s1, r1, c1⟩ := a
      rw [hone] at hout
      subst hout
      rcases processOne_txns_sub fuel today s r _ hone t ht with h | ⟨h, -⟩
      · exact Or.inl h
      · exact Or.inr h

/-- Claim C8: for a recurring definition with a non-null end date `e`: when
`e` has not passed (`today ≤ e`), every transaction any `process_due` run adds
to the ledger is dated on or before `today`, hence on or before `e`; when `e`
has passed (`e < today`), the definition is excluded by the selection filter
and never processed at all.  Together: no occurrence dated strictly after
`end_date` is ever materialized, whatever the run's outcome. -/
theorem c8_end_date_boundary (fuel : Nat) (today : PDate) (s : LedgerState)
    (defs : List RecurringDef) (r : RecurringDef) (e : PDate)
    (hE : r.endDate = some e) :
    (dateLE today e →
      ∀ t ∈ (((processDue fuel today s defs).val).1).txns,
        t ∉ s.txns → dateLE t.date e) ∧
    (¬ dateLE today e → r ∉ defs.filter (isDue today)) := by
  constructor
  · intro hte t ht hnew
    rcases processDefs_txns_sub fuel today (defs.filter (isDue today)) s _
        rfl t ht with h | h
    · exact absurd h hnew
    · exact dateLE_trans h hte
  · intro hte hmem
    have hdue : isDue today r = true := List.of_mem_filter hmem
    unfold isDue at hdue
    rw [hE] at hdue
    simp only [Bool.and_eq_true, decide_eq_true_eq] at hdue
    exact hte hdue.2

/-- Witness for C8 at a monthly definition ending 2024-06-30. -/
theorem c8_end_date_boundary_witness :
    ({ monthlyDef with endDate := some ⟨2024, 6, 30⟩ } :
        RecurringDef).endDate = some ⟨2024, 6, 30⟩ ∧
    (dateLE ⟨2024, 4, 20⟩ ⟨2024, 6, 30⟩ →
      ∀ t ∈ (((processDue 10 ⟨2024, 4, 20⟩ sampleLedger
          [{ monthlyDef with endDate := some ⟨2024, 6, 30⟩ }]).val).1).txns,
        t ∉ sampleLedger.txns → dateLE t.date ⟨2024, 6, 30⟩) ∧
    (¬ dateLE ⟨2024, 4, 20⟩ ⟨2024, 6, 30⟩ →
      { monthlyDef with endDate := some ⟨2024, 6, 30⟩ } ∉
        ([{ monthlyDef with endDate := some ⟨2024, 6, 30⟩ }] :
          List RecurringDef).filter (isDue ⟨2024, 4, 20⟩)) :=
  ⟨by decide,
   (c8_end_date_boundary 10 ⟨2024, 4, 20⟩ sampleLedger
     [{ monthlyDef with endDate := some ⟨2024, 6, 30⟩ }]
     { monthlyDef with endDate := some ⟨2024, 6, 30⟩ } ⟨2024, 6, 30⟩
     (by decide)).1,
   (c8_end_date_boundary 10 ⟨2024, 4, 20⟩ sampleLedger
     [{ monthlyDef with endDate := some ⟨2024, 6, 30⟩ }]
     { monthlyDef with endDate := some ⟨2024, 6, 30⟩ } ⟨2024, 6, 30⟩
     (by decide)).2⟩

lemma specDates_zero (freq : String) (nd today : PDate) :
    specDates 0 freq nd today = none := rfl

lemma specDates_succ (f : Nat) (freq : String) (nd today : PDate) :
    specDates (f + 1) freq nd today =
      if dateLE nd today then
        match calculateNextDate nd freq with
        | none => none
        | some nd1 => (specDates f freq nd1 today).map (fun ds => nd :: ds)
      else some [] := rfl

lemma materializeOccurrence_nontransfer (r : RecurringDef) (s : LedgerState)
    (a1 : Int) (nd : PDate)
    (hnt : ¬(r.ttype = "transfer" ∧ truthyStr r.payee = true)) :
    (materializeOccurrence r s a1 nd).txns =
      s.txns ++ [⟨s.nextTxnId, r.accountId,
        (if r.ttype = "expense" then -(abs a1) else abs a1), nd, r.ttype,
        r.payee, r.category, r.notes, r.project, some r.id⟩] := by
  unfold materializeOccurrence
  rw [if_neg hnt]
  rfl

lemma processLoop_spec_dates (r : RecurringDef) (inc : Int) (today : PDate)
    (hnt : ¬(r.ttype = "transfer" ∧ truthyStr r.payee = true)) :
    ∀ (fuel : Nat) (s : LedgerState) (ca : Int) (lp nd : PDate) (cnt : Nat)
      (ds : List PDate),
      specDates fuel r.frequency nd today = some ds →
      ∃ (s1 : LedgerState) (ca1 : Int),
        processLoop r inc today fuel s ca lp nd cnt =
          .ok (s1, ca1, ds.getLastD lp, cnt + ds.length) ∧
        s1.txns.map Txn.date = s.txns.map Txn.date ++ ds := by
  intro fuel
  induction fuel with
  | zero =>
    intro s ca lp nd cnt ds hspec
    rw [specDates_zero] at hspec
    exact absurd hspec (by simp)
  | succ f ih =>
    intro s ca lp nd cnt ds hspec
    rw [specDates_succ] at hspec
    by_cases hle : dateLE nd today
    · rw [if_pos hle] at hspec
      cases hcalc : calculateNextDate nd r.frequency with
      | none =>
        rw [hcalc] at hspec
        exact absurd hspec (by simp)
      | some nd1 =>
        rw [hcalc] at hspec
        dsimp only at hspec
        cases hspec0 : specDates f r.frequency nd1 today with
        | none =>
          rw [hspec0] at hspec
          exact absurd hspec (by simp)
        | some ds0 =>
          rw [hspec0] at hspec
          simp only [Option.map_some', Option.some.injEq] at hspec
          subst hspec
          obtain ⟨s1, ca1, hloop, hdates⟩ := ih
            (materializeOccurrence r s (ca + inc) nd) (ca + inc) nd nd1
            (cnt + 1) ds0 hspec0
          refine ⟨s1, ca1, ?_, ?_⟩
          · rw [processLoop_succ, if_pos hle, hcalc, List.getLastD_cons]
            have hlen : cnt + (nd :: ds0).length = cnt + 1 + ds0.length := by
              rw [List.length_cons]
              omega
            rw [hlen]
            exact hloop
          · rw [hdates, materializeOccurrence_nontransfer r s (ca + inc) nd hnt,
              List.map_append, List.append_assoc]
            rfl
    · rw [if_neg hle] at hspec
      injection hspec with hspec
      subst hspec
      refine ⟨s, ca, ?_, by simp⟩
      rw [processLoop_succ, if_neg hle]
      show RunOut.ok (s, ca, lp, cnt) = RunOut.ok (s, ca, lp, cnt + 0)
      rw [Nat.add_zero]

/-- Claim C2: for a non-transfer definition whose first advanced date and
whose full advance sequence (the spec's repeated cursor advance while not
after `today`, computed by `specDates`) are defined, `process_due`'s
per-definition body returns normally with exactly one occurrence per advanced
date: the new rows' dates are exactly that sequence, the count equals its
length, and the persisted watermark is its last date (the old watermark when
no date was due).  Concretely, a monthly definition with watermark 2024-01-15
processed on 2024-04-20 materializes exactly the dates Feb 15, Mar 15 and
Apr 15 and ends with watermark 2024-04-15. -/
theorem c2_recurring_catch_up :
    (∀ (fuel : Nat) (today : PDate) (s : LedgerState) (r : RecurringDef)
       (nd0 : PDate) (ds : List PDate),
       ¬(r.ttype = "transfer" ∧ truthyStr r.payee = true) →
       calculateNextDate r.lastProcessed r.frequency = some nd0 →
       specDates fuel r.frequency nd0 today = some ds →
       ∃ (s1 : LedgerState) (r1 : RecurringDef),
         processOne fuel today s r = .ok (s1, r1, ds.length) ∧
         s1.txns.map Txn.date = s.txns.map Txn.date ++ ds ∧
         r1.lastProcessed = ds.getLastD r.lastProcessed) ∧
    ((processDue 10 ⟨2024, 4, 20⟩ sampleLedger [monthlyDef]).isOk = true ∧
     ((processDue 10 ⟨2024, 4, 20⟩ sampleLedger [monthlyDef]).val.1).txns.map
        Txn.date = [⟨2024, 2, 15⟩, ⟨2024, 3, 15⟩, ⟨2024, 4, 15⟩] ∧
     (processDue 10 ⟨2024, 4, 20⟩ sampleLedger [monthlyDef]).val.2.2 = 3 ∧
     ((processDue 10 ⟨2024, 4, 20⟩ sampleLedger [monthlyDef]).val.2.1).map
        RecurringDef.lastProcessed = [⟨2024, 4, 15⟩]) := by
  constructor
  · intro fuel today s r nd0 ds hnt hcalc hspec
    obtain ⟨s1, ca1, hloop, hdates⟩ := processLoop_spec_dates r
      (r.incrementAmount.getD 0) today hnt fuel s r.amount r.lastProcessed nd0
      0 ds hspec
    unfold processOne
    dsimp only
    rw [hcalc]
    dsimp only
    rw [hloop]
    dsimp only
    split_ifs with hne
    · exact ⟨s1, _, by rw [Nat.zero_add], hdates, rfl⟩
    · refine ⟨s1, r, by rw [Nat.zero_add], hdates, ?_⟩
      rw [not_ne_iff] at hne
      exact hne.symm
  · decide

/-- Witness for C2's general clause at the concrete monthly definition. -/
theorem c2_recurring_catch_up_witness :
    (¬(monthlyDef.ttype = "transfer" ∧ truthyStr monthlyDef.payee = true) ∧
     calculateNextDate monthlyDef.lastProcessed monthlyDef.frequency =
       some ⟨2024, 2, 15⟩ ∧
     specDates 10 monthlyDef.frequency ⟨2024, 2, 15⟩ ⟨2024, 4, 20⟩ =
       some [⟨2024, 2, 15⟩, ⟨2024, 3, 15⟩, ⟨2024, 4, 15⟩]) ∧
    (∃ (s1 : LedgerState) (r1 : RecurringDef),
       processOne 10 ⟨2024, 4, 20⟩ sampleLedger monthlyDef =
         .ok (s1, r1,
           ([⟨2024, 2, 15⟩, ⟨2024, 3, 15⟩, ⟨2024, 4, 15⟩] :
             List PDate).length) ∧
       s1.txns.map Txn.date = sampleLedger.txns.map Txn.date ++
         [⟨2024, 2, 15⟩, ⟨2024, 3, 15⟩, ⟨2024, 4, 15⟩] ∧
       r1.lastProcessed =
         ([⟨2024, 2, 15⟩, ⟨2024, 3, 15⟩, ⟨2024, 4, 15⟩] :
           List PDate).getLastD monthlyDef.lastProcessed) :=
  ⟨⟨by decide, by decide, by decide⟩,
   c2_recurring_catch_up.1 10 ⟨2024, 4, 20⟩ sampleLedger monthlyDef
     ⟨2024, 2, 15⟩ [⟨2024, 2, 15⟩, ⟨2024, 3, 15⟩, ⟨2024, 4, 15⟩]
     (by decide) (by decide) (by decide)⟩

lemma materializeOccurrence_txns_append (r : RecurringDef) (s : LedgerState)
    (a1 : Int) (nd : PDate) :
    ∃ L, (materializeOccurrence r s a1 nd).txns = s.txns ++ L := by
  by_cases hc : r.ttype = "transfer" ∧ truthyStr r.payee = true
  · unfold materializeOccurrence
    rw [if_pos hc]
    cases hfind : s.accounts.find? (fun a => a.name = r.payee.getD "") with
    | some dest =>
      exact ⟨_, createTransfer_txns s r.accountId dest.id (abs a1) nd r.payee
        r.category r.notes r.project (some r.id)⟩
    | none =>
      exact ⟨_, createTxn_txns s r.accountId (-(abs a1)) nd r.ttype r.payee
        r.category r.notes r.project (some r.id)⟩
  · exact ⟨_, materializeOccurrence_nontransfer r s a1 nd hc⟩

lemma processLoop_txns_prefix (r : RecurringDef) (inc : Int) (today : PDate) :
    ∀ (fuel : Nat) (s : LedgerState) (ca : Int) (lp nd : PDate) (cnt : Nat)
      (out : RunOut (LedgerState × Int × PDate × Nat)),
      processLoop r inc today fuel s ca lp nd cnt = out →
      ∃ L, (out.val.1).txns = s.txns ++ L := by
  intro fuel
  induction fuel with
  | zero =>
    intro s ca lp nd cnt out hout
    rw [processLoop_zero] at hout
    split_ifs at hout <;> subst hout <;> exact ⟨[], (List.append_nil _).symm⟩
  | succ f ih =>
    intro s ca lp nd cnt out hout
    rw [processLoop_succ] at hout
    split_ifs at hout with hle
    · obtain ⟨L0, hL0⟩ := materializeOccurrence_txns_append r s (ca + inc) nd
      cases hcalc : calculateNextDate nd r.frequency with
      | none =>
        rw [hcalc] at hout
        subst hout
        exact ⟨L0, hL0⟩
      | some nd1 =>
        rw [hcalc] at hout
        obtain ⟨L1, hL1⟩ := ih (materializeOccurrence r s (ca + inc) nd)
          (ca + inc) nd nd1 (cnt + 1) out hout
        refine ⟨L0 ++ L1, ?_⟩
        rw [hL1, hL0, List.append_assoc]
    · subst hout
      exact ⟨[], (List.append_nil _).symm⟩

lemma processOne_val_state (fuel : Nat) (today : PDate) (s : LedgerState)
    (r : RecurringDef) (nd0 : PDate)
    (hcalc : calculateNextDate r.lastProcessed r.frequency = some nd0) :
    ((processOne fuel today s r).val).1 =
      ((processLoop r (r.incrementAmount.getD 0) today fuel s r.amount
          r.lastProcessed nd0 0).val).1 := by
  unfold processOne
  dsimp only
  rw [hcalc]
  dsimp only
  cases hloop : processLoop r (r.incrementAmount.getD 0) today fuel s r.amount
      r.lastProcessed nd0 0 with
  | ok a =>
    obtain ⟨s1, ca1, lp1, cnt⟩ := a
    dsimp only
    split_ifs <;> rfl
  | exn a =>
    obtain ⟨s1, ca1, lp1, cnt⟩ := a
    rfl
  | spin a =>
    obtain ⟨s1, ca1, lp1, cnt⟩ := a
    rfl

/-- Claim C5: in `process_due` the increment is added to the running amount
before each occurrence is materialized, so the very first occurrence after one
elapsed period already reflects one increment: whenever the first advanced
date `nd0` is due, the first row created for a non-transfer definition
carries amount `±abs(amount + increment)`.  Concretely, the monthly
definition with amount 100 and increment 10 catching up exactly 3 periods
produces occurrence amounts 110, 120, 130 in order and persists 130 as the
definition's stored amount. -/
theorem c5_increment_accumulation :
    (∀ (fuel : Nat) (today : PDate) (s : LedgerState) (r : RecurringDef)
       (nd0 : PDate),
       ¬(r.ttype = "transfer" ∧ truthyStr r.payee = true) →
       calculateNextDate r.lastProcessed r.frequency = some nd0 →
       dateLE nd0 today →
       ∃ rest, (((processOne (fuel + 1) today s r).val).1).txns =
         s.txns ++ (⟨s.nextTxnId, r.accountId,
           (if r.ttype = "expense"
            then -(abs (r.amount + r.incrementAmount.getD 0))
            else abs (r.amount + r.incrementAmount.getD 0)),
           nd0, r.ttype, r.payee, r.category, r.notes, r.project,
           some r.id⟩ :: rest)) ∧
    ((processDue 10 ⟨2024, 4, 20⟩ sampleLedger
        [{ monthlyDef with incrementAmount := some 10 }]).isOk = true ∧
     ((processDue 10 ⟨2024, 4, 20⟩ sampleLedger
        [{ monthlyDef with incrementAmount := some 10 }]).val.1).txns.map
        Txn.amount = [110, 120, 130] ∧
     ((processDue 10 ⟨2024, 4, 20⟩ sampleLedger
        [{ monthlyDef with incrementAmount := some 10 }]).val.2.1).map
        RecurringDef.amount = [130]) := by
  constructor
  · intro fuel today s r nd0 hnt hcalc hle
    rw [processOne_val_state (fuel + 1) today s r nd0 hcalc,
      processLoop_succ, if_pos hle]
    cases hcalc2 : calculateNextDate nd0 r.frequency with
    | none =>
      exact ⟨[], materializeOccurrence_nontransfer r s
        (r.amount + r.incrementAmount.getD 0) nd0 hnt⟩
    | some nd1 =>
      obtain ⟨L, hL⟩ := processLoop_txns_prefix r (r.incrementAmount.getD 0)
        today fuel (materializeOccurrence r s
          (r.amount + r.incrementAmount.getD 0) nd0)
        (r.amount + r.incrementAmount.getD 0) nd0 nd1 (0 + 1) _ rfl
      refine ⟨L, ?_⟩
      rw [hL, materializeOccurrence_nontransfer r s
        (r.amount + r.incrementAmount.getD 0) nd0 hnt, List.append_assoc]
      rfl
  · decide

/-- Witness for C5's general clause at the incremented monthly definition. -/
theorem c5_increment_accumulation_witness :
    (¬(({ monthlyDef with incrementAmount := some 10 } :
          RecurringDef).ttype = "transfer" ∧
        truthyStr ({ monthlyDef with incrementAmount := some 10 } :
          RecurringDef).payee = true) ∧
     calculateNextDate ({ monthlyDef with incrementAmount := some 10 } :
         RecurringDef).lastProcessed
       ({ monthlyDef with incrementAmount := some 10 } :
         RecurringDef).frequency = some ⟨2024, 2, 15⟩ ∧
     dateLE ⟨2024, 2, 15⟩ ⟨2024, 4, 20⟩) ∧
    (∃ rest, (((processOne 10 ⟨2024, 4, 20⟩ sampleLedger
        { monthlyDef with incrementAmount := some 10 }).val).1).txns =
      sampleLedger.txns ++ (⟨sampleLedger.nextTxnId, 1,
        (if ("income" : String) = "expense" then -(abs ((100 : Int) + 10))
         else abs ((100 : Int) + 10)),
        ⟨2024, 2, 15⟩, "income", none, none, none, none, some 1⟩ :: rest)) :=
  ⟨⟨by decide, by decide, by decide⟩,
   c5_increment_accumulation.1 9 ⟨2024, 4, 20⟩ sampleLedger
     { monthlyDef with incrementAmount := some 10 } ⟨2024, 2, 15⟩
     (by decide) (by decide) (by decide)⟩

end MoneyTracker
